import Mathlib

/-!
SkyStack converter: discovery, classification, selection, path planning, orchestration.

A shallow embedding of `Final 1st Architecture/converter/src/main.cpp`.

Conventions of the embedding
* `std::string` is `String`; its characters stand for the bytes of the C++ string
  (the functions below look at ASCII characters only).
* `int` fields that hold values read from the raster engine are `Int`; counters and
  sizes are `Nat`.
* `double` fields are never computed with, only copied: they are kept as the bit
  pattern of the value (`Nat`).
* Calls into the raster engine, the clock and the file system are explicit: the file
  system is a value threaded through the code, the engine's answers are parameters.
* An exception that leaves a function is a result of its own: `none`, or an error of
  `convert`. An exception that leaves an iteration of the parallel loop ends the process.
* An iteration of the parallel loop is cut in two steps, the guard with the directory
  creation and the pathway call with the result store; the steps of different iterations
  interleave in any order.
-/

namespace SkyStack

/-! ## Data model -/

inductive DatasetType where
  | IMAGE_BAND
  | GEOLOCATION
  | QUALITY_FLAG
  | TIME_DATA
  | AUXILIARY
  | UNKNOWN
  deriving DecidableEq, Repr

structure GeospatialInfo where
  crs : String := ""
  transform : List Nat := [0, 0, 0, 0, 0, 0]
  deriving DecidableEq, Repr

structure AcquisitionInfo where
  acquisitionTime : String := ""
  satellite : String := ""
  sensor : String := ""
  deriving DecidableEq, Repr

structure SubdatasetInfo where
  name : String := ""
  description : String := ""
  path : String := ""
  type : DatasetType := DatasetType.UNKNOWN
  bandName : String := ""
  bandType : String := ""
  dimensions : Int := 0
  width : Int := 0
  height : Int := 0
  bands : Int := 0
  dtype : String := ""
  tileWidth : Int := 0
  tileHeight : Int := 0
  sizeBytes : Nat := 0
  checksum : String := ""
  role : String := ""
  wavelength_nm : Nat := 0
  geo : GeospatialInfo := {}
  acq : AcquisitionInfo := {}
  deriving DecidableEq, Repr

structure ProcessedSubdataset where
  info : SubdatasetInfo := {}
  status : String := ""
  outputPath : String := ""
  deriving DecidableEq, Repr

structure ConversionOptions where
  listSubdatasets : Bool := false
  subdatasetName : String := ""
  subdatasetPatterns : List String := []
  outputDirectory : String := "output"
  overwrite : Bool := false
  groupByBand : Bool := true
  blockSize : Int := 512
  compress : String := "LZW"
  compressionLevel : Int := 6
  numThreads : Int := -1
  createOverview : Bool := true
  convertImageBands : Bool := true
  convertGeolocation : Bool := true
  convertQualityFlags : Bool := true
  convertTimeData : Bool := true
  convertAuxiliary : Bool := true
  convertUnknown : Bool := true
  deriving DecidableEq, Repr

structure Metadata where
  converterVersion : String := "1.2.0"
  conversionOptions : ConversionOptions := {}
  deriving DecidableEq, Repr

structure Manifest where
  inputFile : String := ""
  processingTimestamp : String := ""
  overviewImage : String := ""
  processingDurationMs : Nat := 0
  totalSubdatasets : Nat := 0
  convertedCount : Nat := 0
  skippedCount : Nat := 0
  failedCount : Nat := 0
  processedFiles : List ProcessedSubdataset := []
  metadata : Metadata := {}
  deriving DecidableEq, Repr

/-! ## `std::string` operations used by the converter -/

/-- The C-locale `::tolower`: upper-case ASCII letters are mapped, all else is kept. -/
def tolower (c : Char) : Char :=
  if 65 ≤ c.toNat ∧ c.toNat ≤ 90 then Char.ofNat (c.toNat + 32) else c

/-- The C-locale `isalnum`: ASCII letters and digits. -/
def isalnum (c : Char) : Bool :=
  (48 ≤ c.toNat && c.toNat ≤ 57) || (65 ≤ c.toNat && c.toNat ≤ 90) ||
    (97 ≤ c.toNat && c.toNat ≤ 122)

/-- Scan of `std::string::find`: the first position at or after offset `i` (the
position of the head of `s`) where `needle` occurs. -/
def findFrom : List Char → List Char → Nat → Option Nat
  | [], needle, i => if needle.isPrefixOf [] then some i else none
  | c :: t, needle, i =>
    if needle.isPrefixOf (c :: t) then some i else findFrom t needle (i + 1)

/-- The call `s.find(needle)`; `none` stands for `std::string::npos`. -/
def find (s needle : String) : Option Nat := findFrom s.data needle.data 0

/-- Scan of `std::string::find_last_of(ch)`: the last position of `ch`, the head of
the list being at offset `i`. -/
def findLastFrom : List Char → Char → Nat → Option Nat
  | [], _, _ => none
  | c :: t, ch, i =>
    match findLastFrom t ch (i + 1) with
    | some j => some j
    | none => if c = ch then some i else none

/-- The call `s.find_last_of(ch)`. -/
def find_last_of (s : String) (ch : Char) : Option Nat := findLastFrom s.data ch 0

/-- The call `s.substr(pos)`. -/
def substr (s : String) (pos : Nat) : String := ⟨s.data.drop pos⟩

/-- The call `s.substr(pos, len)`. -/
def substrLen (s : String) (pos len : Nat) : String := ⟨(s.data.drop pos).take len⟩

/-! ## Classification -/

/-- The method `HDF5ToCOGConverter::classifySubdataset`. -/
def classifySubdataset (name : String) (_description : String) : DatasetType :=
  let lowerName : String := ⟨name.data.map tolower⟩
  if find lowerName "img_" = some 0 then DatasetType.IMAGE_BAND
  else if find lowerName "geo" = some 0 ∨ find lowerName "latitude" ≠ none ∨
      find lowerName "longitude" ≠ none then DatasetType.GEOLOCATION
  else if find lowerName "quality" ≠ none ∨ find lowerName "flag" ≠ none then
    DatasetType.QUALITY_FLAG
  else if find lowerName "time" ≠ none ∨ find lowerName "scan_line_time" ≠ none then
    DatasetType.TIME_DATA
  else if find lowerName "sun_" ≠ none ∨ find lowerName "sat_" ≠ none ∨
      find lowerName "angle" ≠ none then DatasetType.AUXILIARY
  else DatasetType.UNKNOWN

/-- The method `HDF5ToCOGConverter::datasetTypeToString`. -/
def datasetTypeToString : DatasetType → String
  | DatasetType.IMAGE_BAND => "Image_Band"
  | DatasetType.GEOLOCATION => "Geolocation"
  | DatasetType.QUALITY_FLAG => "Quality_Flag"
  | DatasetType.TIME_DATA => "Time"
  | DatasetType.AUXILIARY => "Auxiliary"
  | DatasetType.UNKNOWN => "Unknown"

/-- ASCII lower-casing of a name, as the specification words it. -/
def asciiLower (name : String) : List Char := name.data.map tolower

/-- The statement "name begins with `p`" of the specification. -/
def beginsWith (l : List Char) (p : String) : Prop := p.data <+: l

/-- The statement "name contains `p`" of the specification. -/
def containsText (l : List Char) (p : String) : Prop := p.data <:+: l

instance (l : List Char) (p : String) : Decidable (beginsWith l p) := by
  unfold beginsWith; infer_instance

instance (l : List Char) (p : String) : Decidable (containsText l p) := by
  unfold containsText; infer_instance

/-- The precedence-ordered rule chain of the specification: the tag of the first rule
that matches the ASCII-lowercased display name. -/
def classifyByRules (name : String) : DatasetType :=
  let l := asciiLower name
  if beginsWith l "img_" then DatasetType.IMAGE_BAND
  else if beginsWith l "geo" ∨ containsText l "latitude" ∨ containsText l "longitude" then
    DatasetType.GEOLOCATION
  else if containsText l "quality" ∨ containsText l "flag" then DatasetType.QUALITY_FLAG
  else if containsText l "time" then DatasetType.TIME_DATA
  else if containsText l "sun_" ∨ containsText l "sat_" ∨ containsText l "angle" then
    DatasetType.AUXILIARY
  else DatasetType.UNKNOWN

/-! ## File names and paths -/

/-- The method `HDF5ToCOGConverter::sanitizeFilename`: `std::replace_if` with the
predicate `!isalnum(c) && c != '_' && c != '-'` and the replacement `'_'`. -/
def sanitizeFilename (name : String) : String :=
  ⟨name.data.map fun c => if !isalnum c && c != '_' && c != '-' then '_' else c⟩

/-- POSIX `fs::path::filename()`: what follows the last directory separator. -/
def pathFilename (p : String) : String :=
  ⟨(p.data.reverse.takeWhile fun c => c != '/').reverse⟩

/-- POSIX `fs::path::has_filename()`. -/
def pathHasFilename (p : String) : Bool := (pathFilename p).data != []

/-- POSIX `fs::path::stem()`: the file name without its last extension; the names
`.` and `..`, a name without a period and a name whose only period comes first are
kept whole. -/
def pathStem (p : String) : String :=
  let f := pathFilename p
  if f = "." ∨ f = ".." then f
  else
    match find_last_of f '.' with
    | none => f
    | some 0 => f
    | some pos => substrLen f 0 pos

/-- POSIX `fs::path::operator/=`: an absolute right operand replaces the path;
otherwise a separator is added when the path has a file name, then the operand. -/
def pathAppend (a b : String) : String :=
  if b.data.head? = some '/' then b
  else if pathHasFilename a then a ++ "/" ++ b
  else a ++ b

/-- POSIX `fs::path::parent_path()`: the path without its file name and without the
separators before it; a path made of separators only is its own parent. -/
def pathParent (p : String) : String :=
  let dir := p.data.reverse.dropWhile fun c => c != '/'
  let trimmed := dir.dropWhile fun c => c == '/'
  if trimmed = [] then ⟨dir.reverse⟩ else ⟨trimmed.reverse⟩

/-- The method `HDF5ToCOGConverter::generateOutputPath`. -/
def generateOutputPath (inputPath : String) (sub : SubdatasetInfo)
    (options : ConversionOptions) : String :=
  let stem := pathStem inputPath
  let ext := if sub.dimensions = 1 then ".json" else ".tif"
  let outputPath := options.outputDirectory
  let outputPath := pathAppend outputPath stem
  let outputPath :=
    if options.groupByBand && sub.type != DatasetType.UNKNOWN then
      pathAppend outputPath (datasetTypeToString sub.type)
    else outputPath
  let cleanName := sanitizeFilename sub.name
  pathAppend outputPath (cleanName ++ ext)

/-- The layout operator `a / b` of the specification: `b` is put below `a`, with one
separator between them unless `a` is empty or already ends in one. -/
def below (a b : String) : String :=
  if a.data = [] ∨ a.data.getLast? = some '/' then a ++ b else a ++ "/" ++ b

/-- The classification folder of the specification: present when grouping is enabled
and the tag is not Unknown. -/
def classificationFolder (groupByBand : Bool) : DatasetType → Option String
  | DatasetType.IMAGE_BAND => if groupByBand then some "Image_Band" else none
  | DatasetType.GEOLOCATION => if groupByBand then some "Geolocation" else none
  | DatasetType.QUALITY_FLAG => if groupByBand then some "Quality_Flag" else none
  | DatasetType.TIME_DATA => if groupByBand then some "Time" else none
  | DatasetType.AUXILIARY => if groupByBand then some "Auxiliary" else none
  | DatasetType.UNKNOWN => none

/-- The output layout of the specification:
`outputDirectory / containerStem / [classificationFolder /] sanitizedName.ext`. -/
def plannedLayout (inputPath : String) (sub : SubdatasetInfo)
    (options : ConversionOptions) : String :=
  let ext := if sub.dimensions = 1 then ".json" else ".tif"
  let base := below options.outputDirectory (pathStem inputPath)
  let dir :=
    match classificationFolder options.groupByBand sub.type with
    | some folder => below base folder
    | none => base
  below dir (sanitizeFilename sub.name ++ ext)

/-! ## Selection filter -/

/-- The method `HDF5ToCOGConverter::filterSubdatasets`: the loop pushes a descriptor
when the flag selected by the `switch` on its type is set. -/
def filterSubdatasets (subdatasets : List SubdatasetInfo) (options : ConversionOptions) :
    List SubdatasetInfo :=
  subdatasets.foldl
    (fun filtered sub =>
      let shouldProcess :=
        match sub.type with
        | DatasetType.IMAGE_BAND => options.convertImageBands
        | DatasetType.GEOLOCATION => options.convertGeolocation
        | DatasetType.QUALITY_FLAG => options.convertQualityFlags
        | DatasetType.TIME_DATA => options.convertTimeData
        | DatasetType.AUXILIARY => options.convertAuxiliary
        | DatasetType.UNKNOWN => options.convertUnknown
      if shouldProcess then filtered ++ [sub] else filtered)
    []

/-- The inclusion flag of a classification tag, as the specification pairs them. -/
def inclusionFlag (options : ConversionOptions) : DatasetType → Bool
  | DatasetType.IMAGE_BAND => options.convertImageBands
  | DatasetType.GEOLOCATION => options.convertGeolocation
  | DatasetType.QUALITY_FLAG => options.convertQualityFlags
  | DatasetType.TIME_DATA => options.convertTimeData
  | DatasetType.AUXILIARY => options.convertAuxiliary
  | DatasetType.UNKNOWN => options.convertUnknown

/-! ## Descriptor catalog builder -/

/-- The method `HDF5ToCOGConverter::extractSubdatasetName`. -/
def extractSubdatasetName (path : String) : String :=
  match find_last_of path ':' with
  | some lastColon =>
    let name := substr path (lastColon + 1)
    match find_last_of name '/' with
    | some slashPos => substr name (slashPos + 1)
    | none => name
  | none => path

/-- The method `HDF5ToCOGConverter::extractBandInfo`; `name.rfind("IMG_", 0) != 0` holds
exactly when the name does not start with `IMG_`, and `name.find('_', 4)` scans from
offset 4. -/
def extractBandInfo (sub : SubdatasetInfo) : SubdatasetInfo :=
  if !("IMG_" : String).data.isPrefixOf sub.name.data then sub
  else
    let start := 4
    match findFrom (sub.name.data.drop start) ['_'] start with
    | some underscore =>
      { sub with
        bandName := substrLen sub.name start (underscore - start)
        bandType := substr sub.name (underscore + 1) }
    | none => { sub with bandName := substr sub.name start }

/-- The class `\\d` of `std::regex` in the C locale. -/
def isDigit (c : Char) : Bool := 48 ≤ c.toNat && c.toNat ≤ 57

/-- A match of `SUBDATASET_(\\d+)` followed by `suffix` that starts at the head of `s`:
the captured digits. The greedy `\\d+` takes the whole run of digits; a shorter run is
followed by a digit, never by the suffix. -/
def matchKeyAt (suffix : String) (s : List Char) : Option (List Char) :=
  if ("SUBDATASET_" : String).data.isPrefixOf s then
    let rest := s.drop 11
    let digits := rest.takeWhile isDigit
    if digits != [] && suffix.data.isPrefixOf (rest.dropWhile isDigit) then some digits
    else none
  else none

/-- The call `std::regex_search(key, match, std::regex("SUBDATASET_(\\d+)" + suffix))`:
the capture group of the leftmost match. -/
def regexSearchKey (suffix : String) : List Char → Option (List Char)
  | [] => none
  | c :: t =>
    match matchKeyAt suffix (c :: t) with
    | some digits => some digits
    | none => regexSearchKey suffix t

/-- The number a run of decimal digits denotes. -/
def decimalValue (digits : List Char) : Nat :=
  digits.foldl (fun acc c => acc * 10 + (c.toNat - 48)) 0

/-- The call `std::stoi` on a run of decimal digits; `none` stands for the
`std::out_of_range` exception thrown above `INT_MAX`. -/
def stoi (digits : List Char) : Option Nat :=
  if decimalValue digits ≤ 2147483647 then some (decimalValue digits) else none

/-- The access `tempMap[num]` followed by an update of the mapped descriptor: a missing
key is inserted with a value-initialised descriptor first. The map is kept as a list of
its entries in insertion order. -/
def mapModify (tempMap : List (Nat × SubdatasetInfo)) (num : Nat)
    (f : SubdatasetInfo → SubdatasetInfo) : List (Nat × SubdatasetInfo) :=
  match tempMap with
  | [] => [(num, f {})]
  | (k, v) :: rest =>
    if k = num then (k, f v) :: rest else (k, v) :: mapModify rest num f

/-- One round of the metadata loop of `listSubdatasets`; `none` stands for the exception
of `std::stoi` leaving the loop. -/
def readItem (tempMap : List (Nat × SubdatasetInfo)) (item : String) :
    Option (List (Nat × SubdatasetInfo)) :=
  match find item "=" with
  | none => some tempMap
  | some pos =>
    let key := substrLen item 0 pos
    let value := substr item (pos + 1)
    match regexSearchKey "_NAME" key.data with
    | some digits =>
      match stoi digits with
      | none => none
      | some num =>
        let tempMap := mapModify tempMap num fun v => { v with path := value }
        some (mapModify tempMap num fun v => { v with name := extractSubdatasetName value })
    | none =>
      match regexSearchKey "_DESC" key.data with
      | some digits =>
        match stoi digits with
        | none => none
        | some num => some (mapModify tempMap num fun v => { v with description := value })
      | none => some tempMap

/-- The metadata loop of `listSubdatasets`. -/
def readItems : List String → List (Nat × SubdatasetInfo) →
    Option (List (Nat × SubdatasetInfo))
  | [], tempMap => some tempMap
  | item :: rest, tempMap =>
    match readItem tempMap item with
    | none => none
    | some tempMap => readItems rest tempMap

/-- The comparison `a < b` of `std::string`: lexicographic on the character codes. -/
def strLess : List Char → List Char → Bool
  | [], [] => false
  | [], _ :: _ => true
  | _ :: _, [] => false
  | a :: as, b :: bs =>
    if a.toNat < b.toNat then true
    else if b.toNat < a.toNat then false
    else strLess as bs

/-- The order that `std::sort` with the comparator `a.name < b.name` establishes between
an earlier element `a` and a later element `b`: `b.name < a.name` does not hold. -/
def nameOrdered (a b : SubdatasetInfo) : Prop := strLess b.name.data a.name.data = false

instance : DecidableRel nameOrdered := fun a b => by
  unfold nameOrdered; infer_instance

/-- What the raster engine reports for an opened sub-resource. -/
structure RasterInfo where
  xSize : Int
  ySize : Int
  count : Int
  dataType : String := ""
  projection : Option String := none
  geoTransform : List Nat := [0, 0, 0, 0, 0, 0]
  deriving DecidableEq, Repr

/-- The answers of the raster engine while a container is listed: `container path` is
`none` when `GDALOpen` fails, `some none` when the `SUBDATASETS` table is a null
pointer, and `some (some items)` for a table of `KEY=VALUE` items; `openSub path` is
`none` when `GDALOpen` of a sub-resource fails. -/
structure RasterEngine where
  container : String → Option (Option (List String))
  openSub : String → Option RasterInfo

/-- How `listSubdatasets` and `convert` end when they do not return. -/
inductive ConvertError where
  | openFailed
  | noSubdatasets
  | ordinalOutOfRange
  /-- The call `fs::create_directories(options.outputDirectory)` of `convert` threw. -/
  | directoryError
  /-- An exception left an iteration of the parallel loop of `convert`: the process
  was terminated. -/
  | terminated
  deriving DecidableEq, Repr

/-- The first half of the body of the last loop of `listSubdatasets`: the block guarded
by `if (ds)`, which reads the geometry when the sub-resource opens and leaves the
descriptor as it is otherwise. -/
def readGeometry (engine : RasterEngine) (options : ConversionOptions)
    (sub : SubdatasetInfo) : SubdatasetInfo :=
  match engine.openSub sub.path with
  | some ds =>
    let sub := { sub with width := ds.xSize, height := ds.ySize, bands := ds.count }
    let sub := { sub with dimensions := if sub.width > 1 ∧ sub.height > 1 then 2 else 1 }
    let sub : SubdatasetInfo :=
      if sub.bands > 0 then
        { sub with
          dtype := ds.dataType
          tileWidth := options.blockSize
          tileHeight := options.blockSize }
      else sub
    let crs :=
      match ds.projection with
      | some crs => if crs ≠ "" then crs else "EPSG:4326"
      | none => "EPSG:4326"
    { sub with geo := { crs := crs, transform := ds.geoTransform } }
  | none => sub

/-- The second half of the body of the last loop of `listSubdatasets`: classification
and, for image bands, band information. -/
def classifyAndName (sub : SubdatasetInfo) : SubdatasetInfo :=
  let sub := { sub with type := classifySubdataset sub.name sub.description }
  if sub.type = DatasetType.IMAGE_BAND then extractBandInfo sub else sub

/-- The body of the last loop of `listSubdatasets`. -/
def describeSubdataset (engine : RasterEngine) (options : ConversionOptions)
    (sub : SubdatasetInfo) : SubdatasetInfo :=
  classifyAndName (readGeometry engine options sub)

/-- The method `HDF5ToCOGConverter::listSubdatasets`. The entries of the unordered map
are taken in insertion order and sorted by insertion, one of the orders the unstable
`std::sort` may produce. -/
def listSubdatasets (engine : RasterEngine) (inputPath : String)
    (options : ConversionOptions) : Except ConvertError (List SubdatasetInfo) :=
  match engine.container inputPath with
  | none => Except.error ConvertError.openFailed
  | some none => Except.error ConvertError.noSubdatasets
  | some (some metadata) =>
    if metadata.length = 0 then Except.error ConvertError.noSubdatasets
    else
      match readItems metadata [] with
      | none => Except.error ConvertError.ordinalOutOfRange
      | some tempMap =>
        let subdatasets := tempMap.map fun kv => kv.2
        let subdatasets := subdatasets.insertionSort nameOrdered
        Except.ok (subdatasets.map (describeSubdataset engine options))

/-! ## File system and conversion pathways -/

/-- The part of the file system the converter touches: regular files with their
content, and directories. -/
structure FileSystem where
  files : List (String × String) := []
  dirs : List String := []
  deriving DecidableEq, Repr

/-- The call `fs::exists(p)`. -/
def fsExists (fs : FileSystem) (p : String) : Bool :=
  fs.files.any (fun f => f.1 == p) || fs.dirs.contains p

/-- The content of the regular file at `p`, if there is one. -/
def readFile (fs : FileSystem) (p : String) : Option String :=
  (fs.files.find? fun f => f.1 == p).map fun f => f.2

/-- Opening an output stream on `p` and writing `content`: the file is created or
replaced. -/
def writeFile (fs : FileSystem) (p content : String) : FileSystem :=
  { fs with files := (p, content) :: fs.files.filter fun f => f.1 != p }

/-- The call `fs::remove(p)` on a regular file. -/
def removeFile (fs : FileSystem) (p : String) : FileSystem :=
  { fs with files := fs.files.filter fun f => f.1 != p }

/-- The directories named by a path: every prefix that ends before a separator and is
neither empty nor ends in a separator itself, and the whole path. `acc` holds the
characters already passed, last first. -/
def dirChain : List Char → List Char → List String
  | acc, [] => if acc = [] then [] else [⟨acc.reverse⟩]
  | acc, c :: t =>
    if c = '/' ∧ acc ≠ [] ∧ acc.head? ≠ some '/' then
      ⟨acc.reverse⟩ :: dirChain (c :: acc) t
    else dirChain (c :: acc) t

/-- The call `fs::create_directories(p)`: the directories of `p` that do not exist yet
are created. The result is `none` when the call throws `fs::filesystem_error`: on the
empty path, and when `p` or a path above it is a regular file. -/
def createDirectories (fs : FileSystem) (p : String) : Option FileSystem :=
  if p = "" then none
  else if (dirChain [] p.data).any fun d => fs.files.any fun f => f.1 == d then none
  else
    some { fs with dirs := fs.dirs ++ (dirChain [] p.data).filter fun d => !fs.dirs.contains d }

/-- What the raster engine and the operating system answer while one task runs. -/
structure TaskEngine where
  /-- `GDALOpen(sub.path)` returns a dataset. -/
  sourceOpens : Bool := true
  /-- The construction of the sample buffer `std::vector<double> buffer(xsize * ysize)`
  throws (`std::bad_alloc`, `std::length_error`). -/
  bufferThrows : Bool := false
  /-- `GDALRasterIO` returns `CE_None`. -/
  readOk : Bool := true
  /-- `jsonFile.is_open()`. -/
  jsonOpens : Bool := true
  /-- `jsonData.dump(4)` throws (`json::type_error` when the name is not valid UTF-8). -/
  dumpThrows : Bool := false
  /-- `jsonData.dump(4)`, when it returns. -/
  jsonText : String := ""
  /-- `GDALTranslate` returns a dataset. -/
  translateOk : Bool := true
  /-- The bytes `GDALTranslate` leaves at the output path, if it leaves a file. -/
  rasterBytes : Option String := some ""
  /-- `fs::file_size(outputPath)`; `none` when it throws. -/
  statSize : Option Nat := some 0
  deriving DecidableEq, Repr

/-- The method `HDF5ToCOGConverter::convert1DToJson`. The result is `none` when an
exception leaves the method (it has no handler): the buffer cannot be allocated, or the
serialisation throws after the output stream has been opened. -/
def convert1DToJson (e : TaskEngine) (fs : FileSystem) (_inputPath outputJsonPath : String) :
    Option (Bool × FileSystem) :=
  if !e.sourceOpens then some (false, fs)
  else if e.bufferThrows then none
  else if !e.readOk then some (false, fs)
  else if !e.jsonOpens then some (false, fs)
  else if e.dumpThrows then none
  else some (true, writeFile fs outputJsonPath e.jsonText)

/-- The method `HDF5ToCOGConverter::convertToCOG`. -/
def convertToCOG (e : TaskEngine) (fs : FileSystem) (_inputPath outputPath : String)
    (_options : ConversionOptions) : Bool × FileSystem :=
  if !e.sourceOpens then (false, fs)
  else
    let fs :=
      match e.rasterBytes with
      | some bytes => writeFile fs outputPath bytes
      | none => fs
    if !e.translateOk then (false, fs) else (true, fs)

/-- What a task did, recorded while the loop runs. -/
inductive TaskEvent where
  /-- The call `fs::create_directories(path)`. -/
  | createdDirectories (path : String)
  /-- A call of `convert1DToJson` (`json = true`) or `convertToCOG` with its result. -/
  | pathway (json : Bool) (input output : String) (success : Bool)
  deriving DecidableEq, Repr

/-- How the first part of the body of the parallel loop ends for one task. -/
inductive Started where
  /-- The output exists and overwriting is off: the task is over, with this result. -/
  | skipped (result : ProcessedSubdataset)
  /-- The directories of the output are in place, in this file system: the pathway is
  called next. -/
  | ready (fs : FileSystem)
  /-- The call `fs::create_directories` threw. -/
  | thrown
  deriving DecidableEq, Repr

/-- The first part of the body of the parallel loop of `convert` for one task: the
result is initialised, the guard `!options.overwrite && fs::exists(result.outputPath)` is
evaluated and, when it is false, the directories of the output are created. -/
def startTask (fs : FileSystem) (inputPath : String) (sub : SubdatasetInfo)
    (options : ConversionOptions) : Started :=
  let result : ProcessedSubdataset := {}
  let result := { result with info := sub }
  let result := { result with outputPath := generateOutputPath inputPath sub options }
  if !options.overwrite && fsExists fs result.outputPath then
    Started.skipped { result with status := "Skipped" }
  else
    match createDirectories fs (pathParent result.outputPath) with
    | none => Started.thrown
    | some fs => Started.ready fs

/-- The second part of the body of the parallel loop of `convert` for one task that was
not skipped: the pathway is called, the status is set from what it reports and the file
size is read. The result is `none` when an exception leaves the pathway (the loop body
has a handler around `fs::file_size` only); otherwise it is the result of the task, the
file system afterwards and what the pathway reported. -/
def finishTask (e : TaskEngine) (fs : FileSystem) (inputPath : String) (sub : SubdatasetInfo)
    (options : ConversionOptions) : Option (ProcessedSubdataset × FileSystem × Bool) :=
  let result : ProcessedSubdataset := {}
  let result := { result with info := sub }
  let result := { result with outputPath := generateOutputPath inputPath sub options }
  let called :=
    if sub.dimensions = 1 then convert1DToJson e fs sub.path result.outputPath
    else some (convertToCOG e fs sub.path result.outputPath options)
  match called with
  | none => none
  | some (success, fs) =>
    if success then
      let result := { result with status := "Converted" }
      let result :=
        match e.statSize with
        | some size => { result with info := { result.info with sizeBytes := size } }
        | none => result
      some (result, fs, true)
    else some ({ result with status := "Failed" }, fs, false)

/-- The state of the parallel loop: the pre-sized result slots, the file system, the
record of what each task did, and the tasks that have passed the guard and have not
called their pathway yet. -/
structure LoopState where
  results : List ProcessedSubdataset
  fs : FileSystem
  events : List (Nat × TaskEvent)
  inFlight : List Nat
  deriving DecidableEq, Repr

/-- A step of the parallel loop: iteration `i` runs its first part (`start`), or its
second part (`finish`). -/
inductive Step where
  | start (i : Nat)
  | finish (i : Nat)
  deriving DecidableEq, Repr

/-- One step of the loop. A skipped task stores its result in slot `i` at once; a task
that calls its pathway stores it when it finishes; `finish i` does nothing unless task
`i` is in flight. The result is `none` when an exception leaves the iteration: nothing in
the loop catches it and the process is terminated. -/
def runStep (engine : Nat → TaskEngine) (inputPath : String) (options : ConversionOptions)
    (filteredSubdatasets : List SubdatasetInfo) (st : LoopState) : Step → Option LoopState
  | Step.start i =>
    match filteredSubdatasets[i]? with
    | none => some st
    | some sub =>
      match startTask st.fs inputPath sub options with
      | Started.skipped result => some { st with results := st.results.set i result }
      | Started.thrown => none
      | Started.ready fs =>
        some { st with
          fs := fs
          events := st.events ++
            [(i, TaskEvent.createdDirectories
              (pathParent (generateOutputPath inputPath sub options)))]
          inFlight := i :: st.inFlight }
  | Step.finish i =>
    if i ∈ st.inFlight then
      match filteredSubdatasets[i]? with
      | none => some st
      | some sub =>
        match finishTask (engine i) st.fs inputPath sub options with
        | none => none
        | some (result, fs, success) =>
          some
            { results := st.results.set i result
              fs := fs
              events := st.events ++
                [(i, TaskEvent.pathway (sub.dimensions = 1) sub.path
                  (generateOutputPath inputPath sub options) success)]
              inFlight := st.inFlight.filter fun j => j != i }
    else some st

/-- The steps of the loop one after another; `none` as soon as a step throws. -/
def runSteps (engine : Nat → TaskEngine) (inputPath : String) (options : ConversionOptions)
    (filteredSubdatasets : List SubdatasetInfo) : List Step → LoopState → Option LoopState
  | [], st => some st
  | s :: rest, st =>
    match runStep engine inputPath options filteredSubdatasets st s with
    | none => none
    | some st => runSteps engine inputPath options filteredSubdatasets rest st

/-- The order of the steps of the loop: the iterations start in the order `schedule`
gives; after the start of iteration `i` the iterations `settle i` finish, if they are in
flight; what is still in flight after the last start finishes in schedule order. With
`settle i = [i]` every iteration runs from start to end without another one in between;
with `settle i = []` every guard is evaluated before any pathway is called. -/
def loopSteps (schedule : List Nat) (settle : Nat → List Nat) : List Step :=
  (schedule.map fun i => Step.start i :: (settle i).map Step.finish).flatten ++
    schedule.map Step.finish

/-- The `#pragma omp parallel for` loop of `convert`, starting from value-initialised
result slots. The two parts of the iterations interleave as `schedule` (any permutation
of the indices) and `settle` say. The result is `none` when an exception leaves an
iteration. -/
def runTasks (engine : Nat → TaskEngine) (settle : Nat → List Nat) (inputPath : String)
    (options : ConversionOptions) (filteredSubdatasets : List SubdatasetInfo)
    (schedule : List Nat) (fs : FileSystem) : Option LoopState :=
  runSteps engine inputPath options filteredSubdatasets (loopSteps schedule settle)
    { results := List.replicate filteredSubdatasets.length {}, fs := fs, events := [],
      inFlight := [] }

/-- The counting loop of `convert` over the results. -/
def countStatuses (results : List ProcessedSubdataset) (manifest : Manifest) : Manifest :=
  results.foldl
    (fun manifest res =>
      if res.status = "Converted" then
        { manifest with convertedCount := manifest.convertedCount + 1 }
      else if res.status = "Skipped" then
        { manifest with skippedCount := manifest.skippedCount + 1 }
      else if res.status = "Failed" then
        { manifest with failedCount := manifest.failedCount + 1 }
      else manifest)
    manifest

/-- Everything outside the program that a run of `convert` depends on. -/
structure RunWorld where
  engine : RasterEngine
  /-- The answers of the engine for the task at each index. -/
  task : Nat → TaskEngine
  /-- The order in which the iterations of the parallel loop start. -/
  schedule : List Nat
  /-- The iterations that finish after the start of iteration `i` and before the next
  start; by default iteration `i` itself. -/
  settle : Nat → List Nat := fun i => [i]
  /-- The formatted local time at the start of the run. -/
  timestamp : String := ""
  /-- The elapsed milliseconds measured at the end of the loop. -/
  durationMs : Nat := 0
  /-- `fs::temp_directory_path()`. -/
  tempDirectory : String := "/tmp"
  /-- `GDALBuildVRT` returns a dataset. -/
  vrtBuilt : Bool := true
  /-- `GDALOpen(vrtPath)` returns a dataset. -/
  vrtOpens : Bool := true
  /-- The bytes of the preview when `GDALTranslate` returns a dataset. -/
  overviewBytes : Option String := some ""
  /-- The manifest stream opens. -/
  manifestOpens : Bool := true
  /-- The serialisation `j.dump(4)` of the manifest. -/
  dump : Manifest → String := fun _ => ""

/-- The method `HDF5ToCOGConverter::generateOverviewImage`. -/
def generateOverviewImage (w : RunWorld) (fs : FileSystem) (inputPath : String)
    (manifest : Manifest) (options : ConversionOptions) : String × FileSystem :=
  if !options.createOverview then ("", fs)
  else
    let imageBandPaths :=
      (manifest.processedFiles.filter fun processed =>
        processed.status = "Converted" ∧ processed.info.type = DatasetType.IMAGE_BAND ∧
          processed.info.dimensions > 1).map fun processed => processed.outputPath
    if imageBandPaths.isEmpty then ("", fs)
    else
      let overviewPath := options.outputDirectory
      let overviewPath := pathAppend overviewPath (pathStem inputPath)
      let overviewPath := pathAppend overviewPath "overview.jpg"
      let vrtPath := pathAppend w.tempDirectory (pathStem inputPath ++ ".vrt")
      if !w.vrtBuilt then ("", fs)
      else
        let fs := writeFile fs vrtPath ""
        let (finalOverviewPath, fs) :=
          if w.vrtOpens then
            match w.overviewBytes with
            | some bytes => (overviewPath, writeFile fs overviewPath bytes)
            | none => ("", fs)
          else ("", fs)
        (finalOverviewPath, removeFile fs vrtPath)

/-- The method `HDF5ToCOGConverter::writeManifest`. -/
def writeManifest (w : RunWorld) (fs : FileSystem) (inputPath : String) (manifest : Manifest)
    (options : ConversionOptions) : FileSystem :=
  let stem := pathStem inputPath
  let manifestPath := options.outputDirectory
  let manifestPath := pathAppend manifestPath stem
  let manifestPath := pathAppend manifestPath "manifest.json"
  if w.manifestOpens then writeFile fs manifestPath (w.dump manifest) else fs

/-- What a run of `convert` leaves behind: the assembled manifest (`none` when the run
returns before assembling one), the file system, and the record of the tasks. -/
structure RunOutcome where
  manifest : Option Manifest
  fs : FileSystem
  events : List (Nat × TaskEvent)

/-- The method `HDF5ToCOGConverter::convert`; an error is the exception that leaves
`listSubdatasets` or `fs::create_directories(options.outputDirectory)`, or the end of the
process when an exception leaves an iteration of the parallel loop. The console output
and the process-wide configuration options set by `setGDALConfigOptions` are not part of
the state. -/
def convert (w : RunWorld) (fs : FileSystem) (inputPath : String)
    (options : ConversionOptions) : Except ConvertError RunOutcome :=
  let manifest : Manifest := {}
  let manifest := { manifest with inputFile := pathFilename inputPath }
  let manifest :=
    { manifest with metadata := { manifest.metadata with conversionOptions := options } }
  let manifest := { manifest with processingTimestamp := w.timestamp }
  match listSubdatasets w.engine inputPath options with
  | Except.error err => Except.error err
  | Except.ok subdatasets =>
    if options.listSubdatasets then Except.ok { manifest := none, fs := fs, events := [] }
    else
      let filteredSubdatasets := filterSubdatasets subdatasets options
      if filteredSubdatasets.isEmpty then
        Except.ok { manifest := none, fs := fs, events := [] }
      else
        let manifest := { manifest with totalSubdatasets := filteredSubdatasets.length }
        let created :=
          if options.outputDirectory ≠ "" then createDirectories fs options.outputDirectory
          else some fs
        match created with
        | none => Except.error ConvertError.directoryError
        | some fs =>
          match runTasks w.task w.settle inputPath options filteredSubdatasets w.schedule
            fs with
          | none => Except.error ConvertError.terminated
          | some st =>
            let results := st.results
            let manifest := { manifest with processedFiles := results }
            let manifest := countStatuses results manifest
            let manifest := { manifest with processingDurationMs := w.durationMs }
            let (overviewImage, fs) := generateOverviewImage w st.fs inputPath manifest options
            let manifest := { manifest with overviewImage := overviewImage }
            let fs := writeManifest w fs inputPath manifest options
            Except.ok { manifest := some manifest, fs := fs, events := st.events }

/-! ## Notions used to state the theorems about the orchestrator -/

/-- The pathway `finishTask` dispatches a task to, run on the file system `fs`: the
scalar pathway for dimensionality 1, the raster pathway otherwise; `none` when an
exception leaves the pathway. -/
def dispatch (e : TaskEngine) (fs : FileSystem) (sub : SubdatasetInfo) (outputPath : String)
    (options : ConversionOptions) : Option (Bool × FileSystem) :=
  if sub.dimensions = 1 then convert1DToJson e fs sub.path outputPath
  else some (convertToCOG e fs sub.path outputPath options)

/-- The file system on which the parallel loop of `convert` starts: the output
directory has been created unless its name is empty; `none` when creating it throws. -/
def loopStart (fs : FileSystem) (options : ConversionOptions) : Option FileSystem :=
  if options.outputDirectory ≠ "" then createDirectories fs options.outputDirectory
  else some fs

/-! ## A sample container and a sample run -/

/-- A sample container: three sub-resources, listed out of name order. -/
def demoTable : List String :=
  ["SUBDATASET_1_NAME=HDF5:\"scene.h5\"://Scan_Line_Time",
   "SUBDATASET_1_DESC=[1x6] time (64-bit floating-point)",
   "SUBDATASET_2_NAME=HDF5:\"scene.h5\"://IMG_VIS",
   "SUBDATASET_3_NAME=HDF5:\"scene.h5\"://Latitude"]

/-- A sample engine: the time series is 1 x 6, the other sub-resources are 4 x 5. -/
def demoEngine : RasterEngine where
  container := fun _ => some (some demoTable)
  openSub := fun p =>
    if p = "HDF5:\"scene.h5\"://Scan_Line_Time" then some { xSize := 1, ySize := 6, count := 1 }
    else some { xSize := 4, ySize := 5, count := 1 }

/-- A sample world: the source of the task at index 2 cannot be opened, every other
engine call succeeds and an output file has 77 bytes; the loop runs the iterations one
after another in the order 2, 0, 1. -/
def demoWorld : RunWorld where
  engine := demoEngine
  task := fun i => if i = 2 then { sourceOpens := false } else { statSize := some 77 }
  schedule := [2, 0, 1]

/-- A file system in which the output of the image band already exists. -/
def demoFs : FileSystem where
  files := [("output/scene/Image_Band/IMG_VIS.tif", "old")]
  dirs := ["output", "output/scene", "output/scene/Image_Band"]

/-- The descriptor of the image band of the sample container. -/
def demoImage : SubdatasetInfo :=
  { name := "IMG_VIS", path := "HDF5:\"scene.h5\"://IMG_VIS",
    type := DatasetType.IMAGE_BAND, bandName := "VIS", dimensions := 2, width := 4,
    height := 5, bands := 1, tileWidth := 512, tileHeight := 512,
    geo := { crs := "EPSG:4326" } }

/-- The descriptor of the latitude grid of the sample container. -/
def demoLatitude : SubdatasetInfo :=
  { name := "Latitude", path := "HDF5:\"scene.h5\"://Latitude",
    type := DatasetType.GEOLOCATION, dimensions := 2, width := 4,
    height := 5, bands := 1, tileWidth := 512, tileHeight := 512,
    geo := { crs := "EPSG:4326" } }

/-- The descriptor of the scan-line time series of the sample container. -/
def demoTime : SubdatasetInfo :=
  { name := "Scan_Line_Time", description := "[1x6] time (64-bit floating-point)",
    path := "HDF5:\"scene.h5\"://Scan_Line_Time", type := DatasetType.TIME_DATA,
    dimensions := 1, width := 1, height := 6, bands := 1, tileWidth := 512,
    tileHeight := 512, geo := { crs := "EPSG:4326" } }

/-- The catalog of the sample container. -/
def demoCatalog : List SubdatasetInfo := [demoImage, demoLatitude, demoTime]

/-- The manifest of the sample run. -/
def demoManifest : Manifest :=
  { inputFile := "scene.h5"
    totalSubdatasets := 3
    convertedCount := 1
    skippedCount := 1
    failedCount := 1
    processedFiles :=
      [{ info := demoImage, status := "Skipped",
         outputPath := "output/scene/Image_Band/IMG_VIS.tif" },
       { info := { demoLatitude with sizeBytes := 77 }, status := "Converted",
         outputPath := "output/scene/Geolocation/Latitude.tif" },
       { info := demoTime, status := "Failed",
         outputPath := "output/scene/Time/Scan_Line_Time.json" }] }

/-- The outcome of the sample run. -/
def demoOutcome : RunOutcome :=
  { manifest := some demoManifest
    fs :=
      { files :=
          [("output/scene/manifest.json", ""),
           ("output/scene/Geolocation/Latitude.tif", ""),
           ("output/scene/Image_Band/IMG_VIS.tif", "old")]
        dirs :=
          ["output", "output/scene", "output/scene/Image_Band", "output/scene/Time",
           "output/scene/Geolocation"] }
    events :=
      [(2, TaskEvent.createdDirectories "output/scene/Time"),
       (2, TaskEvent.pathway true "HDF5:\"scene.h5\"://Scan_Line_Time"
          "output/scene/Time/Scan_Line_Time.json" false),
       (1, TaskEvent.createdDirectories "output/scene/Geolocation"),
       (1, TaskEvent.pathway false "HDF5:\"scene.h5\"://Latitude"
          "output/scene/Geolocation/Latitude.tif" true)] }

/-! ## Notions used to compare two runs -/

/-- The result slot of a task whose pathway ran with the given outcome. -/
def ranResult (e : TaskEngine) (sub : SubdatasetInfo) (outputPath : String) (success : Bool) :
    ProcessedSubdataset :=
  { info :=
      if success then
        match e.statSize with
        | some size => { sub with sizeBytes := size }
        | none => sub
      else sub
    status := if success then "Converted" else "Failed"
    outputPath := outputPath }

/-- The effect of a pathway on the file system: nothing, or the output file written. -/
def applyWrite (written : Option String) (fs : FileSystem) (outputPath : String) : FileSystem :=
  match written with
  | none => fs
  | some content => writeFile fs outputPath content

/-- Two sub-resources of different groups with the same leaf name. -/
def clashTable : List String :=
  ["SUBDATASET_1_NAME=HDF5:\"scene.h5\"://north/Temperature",
   "SUBDATASET_2_NAME=HDF5:\"scene.h5\"://south/Temperature"]

/-- A world in which both sub-resources are 1 x 6 profiles and every engine call
succeeds; the loop runs iteration 0 to its end, then iteration 1. -/
def clashWorld : RunWorld where
  engine :=
    { container := fun _ => some (some clashTable)
      openSub := fun _ => some { xSize := 1, ySize := 6, count := 1 } }
  task := fun _ => {}
  schedule := [0, 1]

/-- The world of the two profiles with the iterations overlapping: both guards are
evaluated before either pathway is called. -/
def clashWorldOverlapping : RunWorld :=
  { clashWorld with settle := fun _ => [] }

/-- The world of the two profiles in which the serialisation of the task at index 0
throws. -/
def clashWorldThrowing : RunWorld :=
  { clashWorld with task := fun i => if i = 0 then { dumpThrows := true } else {} }

/-- A file system in which the output of the image band exists and a regular file stands
where the directory of the geolocation outputs is to be created. -/
def blockedFs : FileSystem where
  files := [("output/scene/Image_Band/IMG_VIS.tif", "old"), ("output/scene/Geolocation", "")]
  dirs := ["output", "output/scene", "output/scene/Image_Band"]

/-- The status and output path of every result of a run, in manifest order. -/
def manifestStatuses (run : Except ConvertError RunOutcome) : Option (List (String × String)) :=
  match run with
  | Except.ok out => out.manifest.map fun m => m.processedFiles.map fun r => (r.status, r.outputPath)
  | Except.error _ => none

/-! ## Notions used to state the theorems about the catalog -/

/-- A metadata item whose key matches one of the two patterns: the kind of the key
(`_NAME` or `_DESC`), the ordinal it captures and the value of the item. -/
structure Entry where
  isName : Bool
  num : Nat
  value : String
  deriving DecidableEq, Repr

/-- The entry a metadata item stands for, if its key matches: the item is split at the
first `=`, the `_NAME` pattern is tried before the `_DESC` pattern, and the ordinal is
the one the leftmost match captures. -/
def matchingEntry (item : String) : Option Entry :=
  match find item "=" with
  | none => none
  | some pos =>
    let key := substrLen item 0 pos
    let value := substr item (pos + 1)
    match regexSearchKey "_NAME" key.data with
    | some digits => some { isName := true, num := decimalValue digits, value := value }
    | none =>
      match regexSearchKey "_DESC" key.data with
      | some digits => some { isName := false, num := decimalValue digits, value := value }
      | none => none

/-- The entries of a metadata table, in table order. -/
def tableEntries (metadata : List String) : List Entry := metadata.filterMap matchingEntry

/-- The update of the map an entry stands for. -/
def applyEntry (tempMap : List (Nat × SubdatasetInfo)) (e : Entry) :
    List (Nat × SubdatasetInfo) :=
  if e.isName then
    mapModify (mapModify tempMap e.num fun v => { v with path := e.value }) e.num
      fun v => { v with name := extractSubdatasetName e.value }
  else mapModify tempMap e.num fun v => { v with description := e.value }

/-- The value of the last entry of the given kind for ordinal `n`. -/
def lastValue (entries : List Entry) (isName : Bool) (n : Nat) : Option String :=
  ((entries.filter fun e => e.isName == isName && e.num == n).getLast?).map fun e => e.value

/-- The provisional descriptor of ordinal `n`: source reference and display name from
the `_NAME` value, description from the `_DESC` value, everything else
value-initialised. -/
def provisional (entries : List Entry) (n : Nat) : SubdatasetInfo :=
  { path := (lastValue entries true n).getD ""
    name := ((lastValue entries true n).map extractSubdatasetName).getD ""
    description := (lastValue entries false n).getD "" }

/-- The map after the entries `es` have been read: one key per ordinal of an entry, each
mapped to the provisional descriptor of its ordinal. -/
def MapInv (es : List Entry) (m : List (Nat × SubdatasetInfo)) : Prop :=
  (m.map Prod.fst).Nodup ∧ (∀ n, n ∈ m.map Prod.fst ↔ ∃ e ∈ es, e.num = n) ∧
    ∀ kv ∈ m, kv.2 = provisional es kv.1

/-- The catalog built from the entries of a metadata table: the provisional descriptors
in map order, sorted by display name, each completed by the last loop. -/
def catalogOf (engine : RasterEngine) (options : ConversionOptions) (metadata : List String) :
    List SubdatasetInfo :=
  ((((tableEntries metadata).foldl applyEntry []).map fun kv => kv.2).insertionSort
    nameOrdered).map (describeSubdataset engine options)

/-! ## Notions used to state the theorems about band information, file names and
shared output paths -/

/-- The band name the specification gives an `IMG_` name: the part after `IMG_` up to,
not including, the first following underscore (the whole remainder when there is none). -/
def bandNameOf (name : String) : String :=
  ⟨(name.data.drop 4).takeWhile fun c => c != '_'⟩

/-- The band type the specification gives an `IMG_` name: everything after the first
underscore that follows `IMG_` (empty when there is none). -/
def bandTypeOf (name : String) : String :=
  ⟨((name.data.drop 4).dropWhile fun c => c != '_').drop 1⟩

/-- A sample container with band names of the three shapes. -/
def bandEngine : RasterEngine where
  container := fun _ => some (some
    ["SUBDATASET_1_NAME=HDF5:\"scene.h5\"://IMG_TIR1_RADIANCE_DN",
     "SUBDATASET_2_NAME=HDF5:\"scene.h5\"://IMG_VIS",
     "SUBDATASET_3_NAME=HDF5:\"scene.h5\"://img_swir"])
  openSub := fun _ => some { xSize := 4, ySize := 5, count := 1 }

/-- The name, band name and band type of every descriptor of a catalog. -/
def bandFields (run : Except ConvertError (List SubdatasetInfo)) :
    Option (List (String × DatasetType × String × String)) :=
  match run with
  | Except.ok catalog => some (catalog.map fun d => (d.name, d.type, d.bandName, d.bandType))
  | Except.error _ => none

/-- The character set `[A-Za-z0-9_-]` of the specification. -/
def inSafeSet (c : Char) : Prop :=
  (Char.toNat 'A' ≤ c.toNat ∧ c.toNat ≤ Char.toNat 'Z') ∨
    (Char.toNat 'a' ≤ c.toNat ∧ c.toNat ≤ Char.toNat 'z') ∨
    (Char.toNat '0' ≤ c.toNat ∧ c.toNat ≤ Char.toNat '9') ∨ c = '_' ∨ c = '-'

instance (c : Char) : Decidable (inSafeSet c) := by
  unfold inSafeSet; infer_instance

/-- Options with every category inclusion flag off. -/
def nothingSelected : ConversionOptions :=
  { convertImageBands := false, convertGeolocation := false, convertQualityFlags := false,
    convertTimeData := false, convertAuxiliary := false, convertUnknown := false }

/-- The extension of the planned output file. -/
def plannedExtension (sub : SubdatasetInfo) : String :=
  if sub.dimensions = 1 then ".json" else ".tif"

/-- The separator `below` puts after `a`. -/
def sepOf (a : String) : List Char :=
  if a.data = [] ∨ a.data.getLast? = some '/' then [] else ['/']

/-- The characters of a planned path after the output directory and the container stem:
the classification folder with its separator, when there is one, and the file name. -/
def layoutTail (sub : SubdatasetInfo) (options : ConversionOptions) : List Char :=
  match classificationFolder options.groupByBand sub.type with
  | some folder =>
    folder.data ++ '/' :: ((sanitizeFilename sub.name).data ++ (plannedExtension sub).data)
  | none => (sanitizeFilename sub.name).data ++ (plannedExtension sub).data

/-- The source reference and the planned output path of every descriptor of a catalog. -/
def plannedPaths (inputPath : String) (options : ConversionOptions)
    (run : Except ConvertError (List SubdatasetInfo)) : Option (List (String × String)) :=
  match run with
  | Except.ok catalog =>
    some (catalog.map fun d => (d.path, generateOutputPath inputPath d options))
  | Except.error _ => none

/-! ## Facts about `find` -/

theorem findFrom_ge (needle : List Char) :
    ∀ (s : List Char) (i j : Nat), findFrom s needle i = some j → i ≤ j := by
  intro s
  induction s with
  | nil =>
    intro i j h
    simp only [findFrom] at h
    split at h
    · simp only [Option.some.injEq] at h; omega
    · simp at h
  | cons c t ih =>
    intro i j h
    simp only [findFrom] at h
    split at h
    · simp only [Option.some.injEq] at h; omega
    · have := ih (i + 1) j h; omega

theorem findFrom_eq_start_iff (needle s : List Char) (i : Nat) :
    findFrom s needle i = some i ↔ needle <+: s := by
  cases s with
  | nil =>
    simp only [findFrom]
    split
    · rename_i h; simp [List.isPrefixOf_iff_prefix.mp h]
    · rename_i h
      constructor
      · intro h2; simp at h2
      · intro h2; exact absurd (List.isPrefixOf_iff_prefix.mpr h2) h
  | cons c t =>
    simp only [findFrom]
    split
    · rename_i h; simp [List.isPrefixOf_iff_prefix.mp h]
    · rename_i h
      constructor
      · intro h2
        have := findFrom_ge needle t (i + 1) i h2
        omega
      · intro h2; exact absurd (List.isPrefixOf_iff_prefix.mpr h2) h

theorem findFrom_ne_none_iff (needle : List Char) :
    ∀ (s : List Char) (i : Nat), findFrom s needle i ≠ none ↔ needle <:+: s := by
  intro s
  induction s with
  | nil =>
    intro i
    simp only [findFrom]
    split
    · rename_i h
      have hp := List.isPrefixOf_iff_prefix.mp h
      simp [hp.isInfix]
    · rename_i h
      constructor
      · intro h2; simp at h2
      · intro h2
        have h3 : needle = [] := List.eq_nil_of_infix_nil h2
        subst h3
        simp at h
  | cons c t ih =>
    intro i
    simp only [findFrom]
    split
    · rename_i h
      have hp := List.isPrefixOf_iff_prefix.mp h
      simp [hp.isInfix]
    · rename_i h
      rw [ih (i + 1), List.infix_cons_iff]
      constructor
      · intro h2; exact Or.inr h2
      · intro h2
        rcases h2 with h2 | h2
        · exact absurd (List.isPrefixOf_iff_prefix.mpr h2) h
        · exact h2

theorem find_zero_iff (s needle : String) :
    find s needle = some 0 ↔ needle.data <+: s.data :=
  findFrom_eq_start_iff needle.data s.data 0

theorem find_ne_none_iff (s needle : String) :
    find s needle ≠ none ↔ needle.data <:+: s.data :=
  findFrom_ne_none_iff needle.data s.data 0

/-! ## Classification: the rule chain -/

/-- C1. For every display name (and description) `classifySubdataset` returns the tag of
the first matching rule of the chain, tested on the ASCII-lowercased name: begins with
`img_`, then begins with `geo` or contains `latitude`/`longitude`, then contains
`quality`/`flag`, then contains `time`, then contains `sun_`/`sat_`/`angle`, else
Unknown; and `IMG_VIS`, `Latitude`, `Quality_Flag` classify as ImageBand, Geolocation,
QualityFlag. -/
theorem classifySubdataset_first_matching_rule :
    (∀ name description : String,
      classifySubdataset name description = classifyByRules name) ∧
    (∀ description : String,
      classifySubdataset "IMG_VIS" description = DatasetType.IMAGE_BAND ∧
      classifySubdataset "Latitude" description = DatasetType.GEOLOCATION ∧
      classifySubdataset "Quality_Flag" description = DatasetType.QUALITY_FLAG) := by
  refine ⟨?_, ?_⟩
  · intro name description
    have hscan : ∀ l : List Char,
        ("scan_line_time" : String).data <:+: l → ("time" : String).data <:+: l := by
      intro l h
      have h0 : ("time" : String).data <:+: ("scan_line_time" : String).data := by decide
      exact h0.trans h
    unfold classifySubdataset classifyByRules beginsWith containsText asciiLower
    simp only [find_zero_iff, find_ne_none_iff]
    have hor : ∀ l : List Char,
        ((("time" : String).data <:+: l ∨ ("scan_line_time" : String).data <:+: l) ↔
          ("time" : String).data <:+: l) := by
      intro l
      constructor
      · rintro (h | h)
        · exact h
        · exact hscan l h
      · intro h; exact Or.inl h
    simp only [hor]
  · intro description
    have h1 : classifySubdataset "IMG_VIS" "" = DatasetType.IMAGE_BAND := by decide
    have h2 : classifySubdataset "Latitude" "" = DatasetType.GEOLOCATION := by decide
    have h3 : classifySubdataset "Quality_Flag" "" = DatasetType.QUALITY_FLAG := by decide
    exact ⟨h1, h2, h3⟩

/-! ## Output path planner -/

theorem pathFilename_no_sep (p : String) : ∀ c ∈ (pathFilename p).data, c ≠ '/' := by
  intro c hc
  simp only [pathFilename, List.mem_reverse] at hc
  have := List.mem_takeWhile_imp hc
  simpa using this

theorem pathStem_no_sep (p : String) : ∀ c ∈ (pathStem p).data, c ≠ '/' := by
  intro c hc
  apply pathFilename_no_sep p
  unfold pathStem at hc
  simp only at hc
  split at hc
  · exact hc
  · split at hc
    · exact hc
    · exact hc
    · simp only [substrLen, List.drop_zero] at hc
      exact List.mem_of_mem_take hc

theorem pathStem_not_absolute (p : String) : (pathStem p).data.head? ≠ some '/' := by
  intro h
  have hmem : '/' ∈ (pathStem p).data := List.mem_of_mem_head? h
  exact pathStem_no_sep p _ hmem rfl

theorem pathHasFilename_iff (a : String) :
    pathHasFilename a = true ↔ ¬ (a.data = [] ∨ a.data.getLast? = some '/') := by
  unfold pathHasFilename pathFilename
  rw [List.getLast?_eq_head?_reverse, ← @List.reverse_eq_nil_iff _ a.data]
  cases a.data.reverse with
  | nil => simp
  | cons c t =>
    by_cases hc : c = '/'
    · simp [hc, List.takeWhile_cons]
    · simp [hc, List.takeWhile_cons]

theorem pathAppend_eq_below (a b : String) (hb : b.data.head? ≠ some '/') :
    pathAppend a b = below a b := by
  unfold pathAppend below
  rw [if_neg hb]
  by_cases h : pathHasFilename a = true
  · rw [if_pos h, if_neg ((pathHasFilename_iff a).mp h)]
  · rw [if_neg h, if_pos (not_not.mp (mt (pathHasFilename_iff a).mpr h))]

theorem sanitized_file_not_absolute (name ext : String) (hext : ext.data.head? ≠ some '/') :
    (sanitizeFilename name ++ ext).data.head? ≠ some '/' := by
  rw [String.data_append]
  unfold sanitizeFilename
  cases hn : name.data with
  | nil => simpa using hext
  | cons c t =>
    simp only [List.map_cons, List.cons_append, List.head?_cons, ne_eq, Option.some.injEq]
    split
    · decide
    · rename_i h
      intro hc
      subst hc
      exact h (by decide)

theorem below_below (a b c : String) (hb : b.data ≠ [])
    (hl : b.data.getLast? ≠ some '/') :
    below (below a b) c = below a (b ++ "/" ++ c) := by
  have key : ∀ x : String, below (x ++ b) c = x ++ b ++ "/" ++ c := by
    intro x
    unfold below
    have h1 : (x ++ b).data ≠ [] := by simp [String.data_append, hb]
    have h2 : (x ++ b).data.getLast? ≠ some '/' := by
      rw [String.data_append, List.getLast?_append_of_ne_nil _ hb]
      exact hl
    rw [if_neg (not_or.mpr ⟨h1, h2⟩)]
  by_cases h : a.data = [] ∨ a.data.getLast? = some '/'
  · have e1 : below a b = a ++ b := by unfold below; rw [if_pos h]
    have e2 : below a (b ++ "/" ++ c) = a ++ (b ++ "/" ++ c) := by unfold below; rw [if_pos h]
    rw [e1, e2, key]; simp [String.append_assoc]
  · have e1 : below a b = a ++ "/" ++ b := by unfold below; rw [if_neg h]
    have e2 : below a (b ++ "/" ++ c) = a ++ "/" ++ (b ++ "/" ++ c) := by
      unfold below; rw [if_neg h]
    rw [e1, e2, key]; simp [String.append_assoc]

/-- The planner never meets the case of `operator/=` in which the operand replaces the
path: every component it appends is relative. -/
theorem generateOutputPath_eq_plannedLayout (inputPath : String) (sub : SubdatasetInfo)
    (options : ConversionOptions) :
    generateOutputPath inputPath sub options = plannedLayout inputPath sub options := by
  have hext : (if sub.dimensions = 1 then ".json" else ".tif" : String).data.head?
      ≠ some '/' := by
    split <;> decide
  unfold generateOutputPath plannedLayout
  simp only
  rw [pathAppend_eq_below _ _ (sanitized_file_not_absolute sub.name _ hext),
    pathAppend_eq_below _ _ (pathStem_not_absolute inputPath)]
  congr 1
  cases hg : options.groupByBand <;> cases ht : sub.type <;>
    simp [classificationFolder, datasetTypeToString] <;>
    exact pathAppend_eq_below _ _ (by decide)

/-- C2. For every container path, descriptor and options, `generateOutputPath` returns
`outputDirectory / stem(containerPath) / [folder /] sanitizeFilename(name) + ext`: each
component is put below the previous one, the classification folder (Image_Band,
Geolocation, Quality_Flag, Time, Auxiliary) is present exactly when `groupByBand` is
true and the tag is not Unknown, and `ext` is `.json` when the dimensionality is 1 and
`.tif` otherwise. With grouping enabled, stem `scene` and the 2-D descriptors `IMG_VIS`,
`Latitude`, `Quality_Flag` the paths below the output directory are
`scene/Image_Band/IMG_VIS.tif`, `scene/Geolocation/Latitude.tif` and
`scene/Quality_Flag/Quality_Flag.tif`. -/
theorem generateOutputPath_layout :
    (∀ (inputPath : String) (sub : SubdatasetInfo) (options : ConversionOptions),
      generateOutputPath inputPath sub options = plannedLayout inputPath sub options) ∧
    (∀ outDir : String,
      generateOutputPath "scene.h5"
          { name := "IMG_VIS", type := DatasetType.IMAGE_BAND, dimensions := 2 }
          { outputDirectory := outDir, groupByBand := true }
        = below outDir "scene/Image_Band/IMG_VIS.tif" ∧
      generateOutputPath "scene.h5"
          { name := "Latitude", type := DatasetType.GEOLOCATION, dimensions := 2 }
          { outputDirectory := outDir, groupByBand := true }
        = below outDir "scene/Geolocation/Latitude.tif" ∧
      generateOutputPath "scene.h5"
          { name := "Quality_Flag", type := DatasetType.QUALITY_FLAG, dimensions := 2 }
          { outputDirectory := outDir, groupByBand := true }
        = below outDir "scene/Quality_Flag/Quality_Flag.tif") := by
  have main := generateOutputPath_eq_plannedLayout
  refine ⟨main, ?_⟩
  intro outDir
  have hs : pathStem "scene.h5" = "scene" := by decide
  refine ⟨?_, ?_, ?_⟩
  · rw [main]
    show below (below (below outDir (pathStem "scene.h5")) "Image_Band")
      (sanitizeFilename "IMG_VIS" ++ ".tif") = _
    rw [hs, below_below _ "Image_Band" _ (by decide) (by decide),
      below_below _ "scene" _ (by decide) (by decide)]
    congr 1
  · rw [main]
    show below (below (below outDir (pathStem "scene.h5")) "Geolocation")
      (sanitizeFilename "Latitude" ++ ".tif") = _
    rw [hs, below_below _ "Geolocation" _ (by decide) (by decide),
      below_below _ "scene" _ (by decide) (by decide)]
    congr 1
  · rw [main]
    show below (below (below outDir (pathStem "scene.h5")) "Quality_Flag")
      (sanitizeFilename "Quality_Flag" ++ ".tif") = _
    rw [hs, below_below _ "Quality_Flag" _ (by decide) (by decide),
      below_below _ "scene" _ (by decide) (by decide)]
    congr 1

/-! ## Selection filter -/

theorem filter_loop_eq (keep : SubdatasetInfo → Bool) :
    ∀ (subdatasets acc : List SubdatasetInfo),
      subdatasets.foldl (fun filtered sub => if keep sub then filtered ++ [sub] else filtered)
        acc = acc ++ subdatasets.filter keep := by
  intro subdatasets
  induction subdatasets with
  | nil => intro acc; simp
  | cons d rest ih =>
    intro acc
    simp only [List.foldl_cons, List.filter_cons]
    rw [ih]
    cases keep d <;> simp

theorem filterSubdatasets_eq_filter (subdatasets : List SubdatasetInfo)
    (options : ConversionOptions) :
    filterSubdatasets subdatasets options =
      subdatasets.filter fun d => inclusionFlag options d.type := by
  have h := filter_loop_eq (fun d => inclusionFlag options d.type) subdatasets []
  simp only [List.nil_append] at h
  rw [← h]
  unfold filterSubdatasets
  congr 1

/-- C3. For every catalog and options, `filterSubdatasets` returns exactly the descriptors
whose classification tag has its inclusion flag set (`convertImageBands`,
`convertGeolocation`, `convertQualityFlags`, `convertTimeData`, `convertAuxiliary`,
`convertUnknown` respectively), in catalog order and unchanged; `subdatasetPatterns` and
`subdatasetName` have no effect on the result. -/
theorem filterSubdatasets_by_flags :
    (∀ (subdatasets : List SubdatasetInfo) (options : ConversionOptions),
      filterSubdatasets subdatasets options =
        subdatasets.filter fun d => inclusionFlag options d.type) ∧
    (∀ (subdatasets : List SubdatasetInfo) (options : ConversionOptions)
        (name : String) (patterns : List String),
      filterSubdatasets subdatasets
          { options with subdatasetName := name, subdatasetPatterns := patterns } =
        filterSubdatasets subdatasets options) := by
  refine ⟨filterSubdatasets_eq_filter, ?_⟩
  intro subdatasets options name patterns
  rw [filterSubdatasets_eq_filter, filterSubdatasets_eq_filter]
  congr 1

/-! ## Conversion orchestrator: the steps of the loop -/

theorem startTask_skip (fs : FileSystem) (inputPath : String) (sub : SubdatasetInfo)
    (options : ConversionOptions)
    (h : (!options.overwrite && fsExists fs (generateOutputPath inputPath sub options)) = true) :
    startTask fs inputPath sub options =
      Started.skipped { info := sub, status := "Skipped",
                        outputPath := generateOutputPath inputPath sub options } := by
  unfold startTask
  simp only [h, if_true]

theorem startTask_thrown (fs : FileSystem) (inputPath : String) (sub : SubdatasetInfo)
    (options : ConversionOptions)
    (h : (!options.overwrite && fsExists fs (generateOutputPath inputPath sub options)) = false)
    (hc : createDirectories fs (pathParent (generateOutputPath inputPath sub options)) = none) :
    startTask fs inputPath sub options = Started.thrown := by
  unfold startTask
  simp only [h, Bool.false_eq_true, if_false, hc]

theorem startTask_ready (fs : FileSystem) (inputPath : String) (sub : SubdatasetInfo)
    (options : ConversionOptions) (fs1 : FileSystem)
    (h : (!options.overwrite && fsExists fs (generateOutputPath inputPath sub options)) = false)
    (hc : createDirectories fs (pathParent (generateOutputPath inputPath sub options)) =
      some fs1) :
    startTask fs inputPath sub options = Started.ready fs1 := by
  unfold startTask
  simp only [h, Bool.false_eq_true, if_false, hc]

theorem finishTask_throws (e : TaskEngine) (fs : FileSystem) (inputPath : String)
    (sub : SubdatasetInfo) (options : ConversionOptions)
    (h : dispatch e fs sub (generateOutputPath inputPath sub options) options = none) :
    finishTask e fs inputPath sub options = none := by
  unfold finishTask
  unfold dispatch at h
  simp only [h]

theorem finishTask_returns (e : TaskEngine) (fs : FileSystem) (inputPath : String)
    (sub : SubdatasetInfo) (options : ConversionOptions) (success : Bool) (fs2 : FileSystem)
    (h : dispatch e fs sub (generateOutputPath inputPath sub options) options =
      some (success, fs2)) :
    finishTask e fs inputPath sub options =
      some (ranResult e sub (generateOutputPath inputPath sub options) success, fs2, success) := by
  unfold finishTask
  unfold dispatch at h
  simp only [h]
  unfold ranResult
  cases success
  · simp
  · cases e.statSize <;> simp

/-- What a step that does not throw does to the state of the loop: nothing, or the
skipped result stored, or the directories created and the task put in flight, or the
pathway called and its result stored. -/
theorem runStep_cases (engine : Nat → TaskEngine) (inputPath : String)
    (options : ConversionOptions) (tasks : List SubdatasetInfo) (st st1 : LoopState) (s : Step)
    (h : runStep engine inputPath options tasks st s = some st1) :
    (st1 = st ∧ (∀ i, s = Step.start i → tasks[i]? = none) ∧
      ∀ i, s = Step.finish i → i ∉ st.inFlight ∨ tasks[i]? = none) ∨
    (∃ i sub, s = Step.start i ∧ tasks[i]? = some sub ∧
      (!options.overwrite && fsExists st.fs (generateOutputPath inputPath sub options)) = true ∧
      st1 = { st with
        results := st.results.set i
          { info := sub, status := "Skipped",
            outputPath := generateOutputPath inputPath sub options } }) ∨
    (∃ i sub fs1, s = Step.start i ∧ tasks[i]? = some sub ∧
      (!options.overwrite && fsExists st.fs (generateOutputPath inputPath sub options)) = false ∧
      createDirectories st.fs (pathParent (generateOutputPath inputPath sub options)) =
        some fs1 ∧
      st1 = { st with
        fs := fs1
        events := st.events ++
          [(i, TaskEvent.createdDirectories
            (pathParent (generateOutputPath inputPath sub options)))]
        inFlight := i :: st.inFlight }) ∨
    (∃ i sub success fs2, s = Step.finish i ∧ i ∈ st.inFlight ∧ tasks[i]? = some sub ∧
      dispatch (engine i) st.fs sub (generateOutputPath inputPath sub options) options =
        some (success, fs2) ∧
      st1 =
        { results := st.results.set i
            (ranResult (engine i) sub (generateOutputPath inputPath sub options) success)
          fs := fs2
          events := st.events ++
            [(i, TaskEvent.pathway (sub.dimensions = 1) sub.path
              (generateOutputPath inputPath sub options) success)]
          inFlight := st.inFlight.filter fun j => j != i }) := by
  cases s with
  | start i =>
    unfold runStep at h
    cases hi : tasks[i]? with
    | none =>
      simp only [hi] at h
      cases h
      left
      refine ⟨rfl, ?_, ?_⟩
      · intro i2 h2
        cases h2
        exact hi
      · intro i2 h2
        cases h2
    | some sub =>
      simp only [hi] at h
      cases hg : (!options.overwrite &&
          fsExists st.fs (generateOutputPath inputPath sub options))
      · cases hc : createDirectories st.fs
            (pathParent (generateOutputPath inputPath sub options)) with
        | none =>
          rw [startTask_thrown _ _ _ _ hg hc] at h
          cases h
        | some fs1 =>
          rw [startTask_ready _ _ _ _ fs1 hg hc] at h
          cases h
          right; right; left
          exact ⟨i, sub, fs1, rfl, hi, hg, hc, rfl⟩
      · rw [startTask_skip _ _ _ _ hg] at h
        cases h
        right; left
        exact ⟨i, sub, rfl, hi, hg, rfl⟩
  | finish i =>
    unfold runStep at h
    by_cases hin : i ∈ st.inFlight
    · simp only [hin, if_true] at h
      cases hi : tasks[i]? with
      | none =>
        simp only [hi] at h
        cases h
        left
        refine ⟨rfl, ?_, ?_⟩
        · intro i2 h2
          cases h2
        · intro i2 h2
          cases h2
          exact Or.inr hi
      | some sub =>
        simp only [hi] at h
        cases hd : dispatch (engine i) st.fs sub (generateOutputPath inputPath sub options)
            options with
        | none =>
          rw [finishTask_throws _ _ _ _ _ hd] at h
          cases h
        | some p =>
          obtain ⟨success, fs2⟩ := p
          rw [finishTask_returns _ _ _ _ _ success fs2 hd] at h
          cases h
          right; right; right
          exact ⟨i, sub, success, fs2, rfl, hin, hi, hd, rfl⟩
    · simp only [hin, if_false] at h
      cases h
      left
      refine ⟨rfl, ?_, ?_⟩
      · intro i2 h2
        cases h2
      · intro i2 h2
        cases h2
        exact Or.inl hin

theorem runSteps_cons (engine : Nat → TaskEngine) (inputPath : String)
    (options : ConversionOptions) (tasks : List SubdatasetInfo) (s : Step) (rest : List Step)
    (st st2 : LoopState)
    (h : runSteps engine inputPath options tasks (s :: rest) st = some st2) :
    ∃ st1, runStep engine inputPath options tasks st s = some st1 ∧
      runSteps engine inputPath options tasks rest st1 = some st2 := by
  unfold runSteps at h
  cases hs : runStep engine inputPath options tasks st s with
  | none =>
    simp only [hs] at h
    cases h
  | some st1 =>
    simp only [hs] at h
    exact ⟨st1, rfl, h⟩

theorem runSteps_append (engine : Nat → TaskEngine) (inputPath : String)
    (options : ConversionOptions) (tasks : List SubdatasetInfo) :
    ∀ (a b : List Step) (st st2 : LoopState),
      runSteps engine inputPath options tasks (a ++ b) st = some st2 →
      ∃ st1, runSteps engine inputPath options tasks a st = some st1 ∧
        runSteps engine inputPath options tasks b st1 = some st2 := by
  intro a
  induction a with
  | nil =>
    intro b st st2 h
    exact ⟨st, rfl, h⟩
  | cons s rest ih =>
    intro b st st2 h
    obtain ⟨st1, hs, hrest⟩ := runSteps_cons engine inputPath options tasks s (rest ++ b) st st2 h
    obtain ⟨st3, h3, h4⟩ := ih b st1 st2 hrest
    refine ⟨st3, ?_, h4⟩
    unfold runSteps
    simp only [hs]
    exact h3

/-- A property of the state that every step keeps holds when the loop is over. -/
theorem runSteps_invariant (engine : Nat → TaskEngine) (inputPath : String)
    (options : ConversionOptions) (tasks : List SubdatasetInfo) (I : LoopState → Prop)
    (hstep : ∀ (st st1 : LoopState) (s : Step), I st →
      runStep engine inputPath options tasks st s = some st1 → I st1) :
    ∀ (steps : List Step) (st st2 : LoopState), I st →
      runSteps engine inputPath options tasks steps st = some st2 → I st2 := by
  intro steps
  induction steps with
  | nil =>
    intro st st2 hI h
    cases h
    exact hI
  | cons s rest ih =>
    intro st st2 hI h
    obtain ⟨st1, hs, hrest⟩ := runSteps_cons engine inputPath options tasks s rest st st2 h
    exact ih st1 st2 (hstep st st1 s hI hs) hrest

theorem runStep_length (engine : Nat → TaskEngine) (inputPath : String)
    (options : ConversionOptions) (tasks : List SubdatasetInfo) (st st1 : LoopState) (s : Step)
    (h : runStep engine inputPath options tasks st s = some st1) :
    st1.results.length = st.results.length := by
  rcases runStep_cases engine inputPath options tasks st st1 s h with
    ⟨h1, -, -⟩ | ⟨i, sub, -, -, -, h1⟩ | ⟨i, sub, fs1, -, -, -, -, h1⟩ |
    ⟨i, sub, success, fs2, -, -, -, -, h1⟩ <;> rw [h1] <;> simp

theorem runSteps_length (engine : Nat → TaskEngine) (inputPath : String)
    (options : ConversionOptions) (tasks : List SubdatasetInfo) (n : Nat) (steps : List Step)
    (st st2 : LoopState) (hlen : st.results.length = n)
    (h : runSteps engine inputPath options tasks steps st = some st2) :
    st2.results.length = n :=
  runSteps_invariant engine inputPath options tasks (fun x => x.results.length = n)
    (fun a b s ha hs => (runStep_length engine inputPath options tasks a b s hs).trans ha)
    steps st st2 hlen h

theorem index_lt_of_task (tasks : List SubdatasetInfo) (i : Nat) (sub : SubdatasetInfo)
    (h : tasks[i]? = some sub) : i < tasks.length := by
  rcases Nat.lt_or_ge i tasks.length with hlt | hge
  · exact hlt
  · rw [List.getElem?_eq_none hge] at h
    cases h

theorem task_of_index_lt (tasks : List SubdatasetInfo) (i : Nat) (h : i < tasks.length) :
    ∃ sub, tasks[i]? = some sub := ⟨tasks[i], by simp [h]⟩

/-! ## Conversion orchestrator: result slots -/

/-- A step keeps slot `i` filled with a result that has the property `P` or task `i` in
flight, and the start of task `i` brings this about. -/
theorem runStep_good (engine : Nat → TaskEngine) (inputPath : String)
    (options : ConversionOptions) (tasks : List SubdatasetInfo)
    (P : Nat → ProcessedSubdataset → Prop)
    (hskip : ∀ (i : Nat) (sub : SubdatasetInfo) (fs : FileSystem), tasks[i]? = some sub →
      (!options.overwrite && fsExists fs (generateOutputPath inputPath sub options)) = true →
      P i { info := sub, status := "Skipped",
            outputPath := generateOutputPath inputPath sub options })
    (hran : ∀ (i : Nat) (sub : SubdatasetInfo) (fs fs2 : FileSystem) (success : Bool),
      tasks[i]? = some sub →
      dispatch (engine i) fs sub (generateOutputPath inputPath sub options) options =
        some (success, fs2) →
      P i (ranResult (engine i) sub (generateOutputPath inputPath sub options) success))
    (st st1 : LoopState) (s : Step)
    (hs : runStep engine inputPath options tasks st s = some st1) (i : Nat)
    (hi : i < tasks.length) (hlen : st.results.length = tasks.length)
    (h : ((∃ r, st.results[i]? = some r ∧ P i r) ∨ i ∈ st.inFlight) ∨ s = Step.start i) :
    (∃ r, st1.results[i]? = some r ∧ P i r) ∨ i ∈ st1.inFlight := by
  obtain ⟨subi, hsubi⟩ := task_of_index_lt tasks i hi
  rcases runStep_cases engine inputPath options tasks st st1 s hs with
    ⟨h1, hnone, -⟩ | ⟨j, sub, hj, hsub, hg, h1⟩ | ⟨j, sub, fs1, hj, hsub, hg, hc, h1⟩ |
    ⟨j, sub, success, fs2, hj, hin, hsub, hd, h1⟩
  · rw [h1]
    rcases h with h | h
    · exact h
    · rw [hnone i h] at hsubi
      cases hsubi
  · rw [h1]
    by_cases hji : j = i
    · left
      subst hji
      refine ⟨_, ?_, hskip j sub st.fs hsub hg⟩
      simp [hlen, hi]
    · rcases h with h | h
      · rcases h with ⟨r, hr, hP⟩ | h
        · left
          refine ⟨r, ?_, hP⟩
          simp only [List.getElem?_set, if_neg hji]
          exact hr
        · exact Or.inr h
      · rw [hj] at h
        cases h
        exact absurd rfl hji
  · rw [h1]
    by_cases hji : j = i
    · right
      subst hji
      exact List.mem_cons_self _ _
    · rcases h with h | h
      · rcases h with h | h
        · exact Or.inl h
        · exact Or.inr (List.mem_cons_of_mem _ h)
      · rw [hj] at h
        cases h
        exact absurd rfl hji
  · rw [h1]
    by_cases hji : j = i
    · left
      subst hji
      refine ⟨_, ?_, hran j sub st.fs fs2 success hsub hd⟩
      simp [hlen, hi]
    · rcases h with h | h
      · rcases h with ⟨r, hr, hP⟩ | h
        · left
          refine ⟨r, ?_, hP⟩
          simp only [List.getElem?_set, if_neg hji]
          exact hr
        · right
          simp only [List.mem_filter, bne_iff_ne, ne_eq]
          exact ⟨h, fun e => hji e.symm⟩
      · rw [hj] at h
        cases h

theorem runSteps_good (engine : Nat → TaskEngine) (inputPath : String)
    (options : ConversionOptions) (tasks : List SubdatasetInfo)
    (P : Nat → ProcessedSubdataset → Prop)
    (hskip : ∀ (i : Nat) (sub : SubdatasetInfo) (fs : FileSystem), tasks[i]? = some sub →
      (!options.overwrite && fsExists fs (generateOutputPath inputPath sub options)) = true →
      P i { info := sub, status := "Skipped",
            outputPath := generateOutputPath inputPath sub options })
    (hran : ∀ (i : Nat) (sub : SubdatasetInfo) (fs fs2 : FileSystem) (success : Bool),
      tasks[i]? = some sub →
      dispatch (engine i) fs sub (generateOutputPath inputPath sub options) options =
        some (success, fs2) →
      P i (ranResult (engine i) sub (generateOutputPath inputPath sub options) success))
    (i : Nat) (hi : i < tasks.length) :
    ∀ (steps : List Step) (st st2 : LoopState),
      runSteps engine inputPath options tasks steps st = some st2 →
      st.results.length = tasks.length →
      (((∃ r, st.results[i]? = some r ∧ P i r) ∨ i ∈ st.inFlight) ∨ Step.start i ∈ steps) →
      (∃ r, st2.results[i]? = some r ∧ P i r) ∨ i ∈ st2.inFlight := by
  intro steps
  induction steps with
  | nil =>
    intro st st2 h _ hg
    cases h
    rcases hg with hg | hg
    · exact hg
    · simp at hg
  | cons s rest ih =>
    intro st st2 h hlen hg
    obtain ⟨st1, hs, hrest⟩ := runSteps_cons engine inputPath options tasks s rest st st2 h
    apply ih st1 st2 hrest
      ((runStep_length engine inputPath options tasks st st1 s hs).trans hlen)
    by_cases hsi : s = Step.start i
    · left
      exact runStep_good engine inputPath options tasks P hskip hran st st1 s hs i hi hlen
        (Or.inr hsi)
    · rcases hg with hg | hg
      · left
        exact runStep_good engine inputPath options tasks P hskip hran st st1 s hs i hi hlen
          (Or.inl hg)
      · right
        rcases List.mem_cons.mp hg with hg | hg
        · exact absurd hg.symm hsi
        · exact hg

/-- A `finish` step puts no task in flight and takes its own task out of flight. -/
theorem runStep_finish_inFlight (engine : Nat → TaskEngine) (inputPath : String)
    (options : ConversionOptions) (tasks : List SubdatasetInfo) (st st1 : LoopState) (j : Nat)
    (hs : runStep engine inputPath options tasks st (Step.finish j) = some st1) :
    (∀ x ∈ st1.inFlight, x ∈ st.inFlight) ∧ (j < tasks.length → j ∉ st1.inFlight) := by
  rcases runStep_cases engine inputPath options tasks st st1 _ hs with
    ⟨h1, -, hfin⟩ | ⟨i, sub, hj, -⟩ | ⟨i, sub, fs1, hj, -⟩ |
    ⟨i, sub, success, fs2, hj, hin, hsub, hd, h1⟩
  · rw [h1]
    refine ⟨fun x hx => hx, ?_⟩
    intro hlt
    rcases hfin j rfl with h | h
    · exact h
    · obtain ⟨sub, hsub⟩ := task_of_index_lt tasks j hlt
      rw [hsub] at h
      cases h
  · cases hj
  · cases hj
  · cases hj
    rw [h1]
    refine ⟨?_, ?_⟩
    · intro x hx
      exact (List.mem_filter.mp hx).1
    · intro _ hmem
      have := (List.mem_filter.mp hmem).2
      simp at this

theorem runSteps_finish_clears (engine : Nat → TaskEngine) (inputPath : String)
    (options : ConversionOptions) (tasks : List SubdatasetInfo) (i : Nat)
    (hi : i < tasks.length) :
    ∀ (l : List Nat) (st st2 : LoopState),
      runSteps engine inputPath options tasks (l.map Step.finish) st = some st2 →
      (i ∈ l ∨ i ∉ st.inFlight) → i ∉ st2.inFlight := by
  intro l
  induction l with
  | nil =>
    intro st st2 h hg
    cases h
    rcases hg with hg | hg
    · simp at hg
    · exact hg
  | cons j rest ih =>
    intro st st2 h hg
    obtain ⟨st1, hs, hrest⟩ := runSteps_cons engine inputPath options tasks _ _ st st2 h
    obtain ⟨hsub, hclear⟩ := runStep_finish_inFlight engine inputPath options tasks st st1 j hs
    apply ih st1 st2 hrest
    by_cases hji : j = i
    · right
      rw [← hji]
      exact hclear (hji ▸ hi)
    · rcases hg with hg | hg
      · left
        rcases List.mem_cons.mp hg with hg | hg
        · exact absurd hg.symm hji
        · exact hg
      · right
        exact fun hmem => hg (hsub i hmem)

theorem start_mem_loopSteps (schedule : List Nat) (settle : Nat → List Nat) (i : Nat)
    (h : i ∈ schedule) :
    Step.start i ∈
      (schedule.map fun i => Step.start i :: (settle i).map Step.finish).flatten := by
  simp only [List.mem_flatten, List.mem_map]
  exact ⟨_, ⟨i, h, rfl⟩, List.mem_cons_self _ _⟩

/-- A property that the skipped result and every result of the pathway of task `i` have
holds, after a loop that no exception cuts short, for the slot of every task. -/
theorem runTasks_slots (engine : Nat → TaskEngine) (settle : Nat → List Nat)
    (inputPath : String) (options : ConversionOptions) (tasks : List SubdatasetInfo)
    (schedule : List Nat) (fs : FileSystem) (st : LoopState)
    (P : Nat → ProcessedSubdataset → Prop)
    (hskip : ∀ (i : Nat) (sub : SubdatasetInfo) (fs : FileSystem), tasks[i]? = some sub →
      (!options.overwrite && fsExists fs (generateOutputPath inputPath sub options)) = true →
      P i { info := sub, status := "Skipped",
            outputPath := generateOutputPath inputPath sub options })
    (hran : ∀ (i : Nat) (sub : SubdatasetInfo) (fs fs2 : FileSystem) (success : Bool),
      tasks[i]? = some sub →
      dispatch (engine i) fs sub (generateOutputPath inputPath sub options) options =
        some (success, fs2) →
      P i (ranResult (engine i) sub (generateOutputPath inputPath sub options) success))
    (hsched : schedule.Perm (List.range tasks.length))
    (hrun : runTasks engine settle inputPath options tasks schedule fs = some st) :
    st.results.length = tasks.length ∧
      ∀ i, i < tasks.length → ∃ r, st.results[i]? = some r ∧ P i r := by
  unfold runTasks loopSteps at hrun
  obtain ⟨st1, h1, h2⟩ := runSteps_append engine inputPath options tasks _ _ _ _ hrun
  have hlen1 : st1.results.length = tasks.length :=
    runSteps_length engine inputPath options tasks tasks.length _ _ _ (by simp) h1
  refine ⟨runSteps_length engine inputPath options tasks tasks.length _ _ _ hlen1 h2, ?_⟩
  intro i hi
  have hmem : i ∈ schedule := hsched.mem_iff.mpr (List.mem_range.mpr hi)
  have hgood1 := runSteps_good engine inputPath options tasks P hskip hran i hi _ _ _ h1
    (by simp) (Or.inr (start_mem_loopSteps schedule settle i hmem))
  have hgood2 := runSteps_good engine inputPath options tasks P hskip hran i hi _ _ _ h2
    hlen1 (Or.inl hgood1)
  have hclear := runSteps_finish_clears engine inputPath options tasks i hi schedule st1 st h2
    (Or.inl hmem)
  rcases hgood2 with h | h
  · exact h
  · exact absurd h hclear

theorem countStatuses_counts :
    ∀ (results : List ProcessedSubdataset) (m : Manifest),
      (countStatuses results m).convertedCount =
          m.convertedCount + results.countP (fun r => decide (r.status = "Converted")) ∧
        (countStatuses results m).skippedCount =
          m.skippedCount + results.countP (fun r => decide (r.status = "Skipped")) ∧
        (countStatuses results m).failedCount =
          m.failedCount + results.countP (fun r => decide (r.status = "Failed")) ∧
        (countStatuses results m).processedFiles = m.processedFiles ∧
        (countStatuses results m).totalSubdatasets = m.totalSubdatasets ∧
        (countStatuses results m).metadata = m.metadata ∧
        (countStatuses results m).inputFile = m.inputFile := by
  intro results
  induction results with
  | nil => intro m; simp [countStatuses]
  | cons r rest ih =>
    intro m
    have step : countStatuses (r :: rest) m =
        countStatuses rest
          (if r.status = "Converted" then
            { m with convertedCount := m.convertedCount + 1 }
          else if r.status = "Skipped" then
            { m with skippedCount := m.skippedCount + 1 }
          else if r.status = "Failed" then
            { m with failedCount := m.failedCount + 1 }
          else m) := rfl
    rw [step]
    obtain ⟨h1, h2, h3, h4, h5, h6, h7⟩ := ih
      (if r.status = "Converted" then
        { m with convertedCount := m.convertedCount + 1 }
      else if r.status = "Skipped" then
        { m with skippedCount := m.skippedCount + 1 }
      else if r.status = "Failed" then
        { m with failedCount := m.failedCount + 1 }
      else m)
    rw [h1, h2, h3, h4, h5, h6, h7]
    simp only [List.countP_cons]
    by_cases hc : r.status = "Converted"
    · have hs : r.status ≠ "Skipped" := by rw [hc]; decide
      have hf : r.status ≠ "Failed" := by rw [hc]; decide
      simp [hc]
      omega
    · by_cases hs : r.status = "Skipped"
      · have hf : r.status ≠ "Failed" := by rw [hs]; decide
        simp [hs]
        omega
      · by_cases hf : r.status = "Failed"
        · simp [hf]
          omega
        · simp [hc, hs, hf]

theorem count_three_statuses :
    ∀ (results : List ProcessedSubdataset),
      (∀ r ∈ results, r.status = "Skipped" ∨ r.status = "Converted" ∨ r.status = "Failed") →
      results.countP (fun r => decide (r.status = "Converted")) +
          results.countP (fun r => decide (r.status = "Skipped")) +
          results.countP (fun r => decide (r.status = "Failed")) = results.length := by
  intro results
  induction results with
  | nil => intro _; rfl
  | cons r rest ih =>
    intro h
    have ih2 := ih fun x hx => h x (List.mem_cons_of_mem _ hx)
    simp only [List.countP_cons, List.length_cons]
    rcases h r (List.mem_cons_self _ _) with hr | hr | hr <;> simp [hr] <;> omega

/-- What `convert` returns when the listing succeeds, list-only mode is off, the selection
is not empty and neither the creation of the output directory nor the loop throws: the
manifest is assembled from the state the loop ends in. -/
theorem convert_reaches_manifest (w : RunWorld) (fs : FileSystem) (inputPath : String)
    (options : ConversionOptions) (catalog : List SubdatasetInfo) (fs1 : FileSystem)
    (st : LoopState)
    (hlist : listSubdatasets w.engine inputPath options = Except.ok catalog)
    (hmode : options.listSubdatasets = false)
    (hne : filterSubdatasets catalog options ≠ [])
    (hstart : loopStart fs options = some fs1)
    (hloop : runTasks w.task w.settle inputPath options (filterSubdatasets catalog options)
      w.schedule fs1 = some st) :
    ∃ out m, convert w fs inputPath options = Except.ok out ∧ out.manifest = some m ∧
      out.events = st.events ∧ m.processedFiles = st.results ∧
      m.totalSubdatasets = (filterSubdatasets catalog options).length ∧
      m.convertedCount = m.processedFiles.countP (fun r => decide (r.status = "Converted")) ∧
      m.skippedCount = m.processedFiles.countP (fun r => decide (r.status = "Skipped")) ∧
      m.failedCount = m.processedFiles.countP (fun r => decide (r.status = "Failed")) := by
  have hemp : (filterSubdatasets catalog options).isEmpty = false := by
    cases hf : filterSubdatasets catalog options with
    | nil => exact absurd hf hne
    | cons _ _ => rfl
  unfold loopStart at hstart
  unfold convert
  simp only [hlist, hmode, hemp, hstart, hloop]
  refine ⟨_, _, rfl, rfl, rfl, ?_⟩
  obtain ⟨h1, h2, h3, h4, h5, -, -⟩ := countStatuses_counts st.results
    { inputFile := pathFilename inputPath
      processingTimestamp := w.timestamp
      totalSubdatasets := (filterSubdatasets catalog options).length
      processedFiles := st.results
      metadata := { conversionOptions := options } }
  simp only at h1 h2 h3 h4 h5
  refine ⟨?_, ?_, ?_, ?_, ?_⟩
  · exact h4
  · exact h5
  · rw [h4]; simpa using h1
  · rw [h4]; simpa using h2
  · rw [h4]; simpa using h3

/-- A run whose manifest exists went through the listing, was not in list-only mode,
selected at least one descriptor, created the output directory and ran the loop to its
end; the manifest is assembled from the state the loop ended in. -/
theorem convert_manifest_inv (w : RunWorld) (fs : FileSystem) (inputPath : String)
    (options : ConversionOptions) (out : RunOutcome) (m : Manifest)
    (hrun : convert w fs inputPath options = Except.ok out) (hm : out.manifest = some m) :
    ∃ catalog fs1 st, listSubdatasets w.engine inputPath options = Except.ok catalog ∧
      options.listSubdatasets = false ∧ filterSubdatasets catalog options ≠ [] ∧
      loopStart fs options = some fs1 ∧
      runTasks w.task w.settle inputPath options (filterSubdatasets catalog options)
        w.schedule fs1 = some st ∧
      out.events = st.events ∧ m.processedFiles = st.results ∧
      m.totalSubdatasets = (filterSubdatasets catalog options).length ∧
      m.convertedCount = m.processedFiles.countP (fun r => decide (r.status = "Converted")) ∧
      m.skippedCount = m.processedFiles.countP (fun r => decide (r.status = "Skipped")) ∧
      m.failedCount = m.processedFiles.countP (fun r => decide (r.status = "Failed")) := by
  cases hlist : listSubdatasets w.engine inputPath options with
  | error err =>
    unfold convert at hrun
    simp [hlist] at hrun
  | ok catalog =>
    cases hmode : options.listSubdatasets with
    | true =>
      unfold convert at hrun
      simp only [hlist, hmode, if_true, Except.ok.injEq] at hrun
      rw [← hrun] at hm
      simp at hm
    | false =>
      by_cases hnil : filterSubdatasets catalog options = []
      · unfold convert at hrun
        simp only [hlist, hmode, hnil, List.isEmpty_nil, if_true, Bool.false_eq_true, if_false,
          Except.ok.injEq] at hrun
        rw [← hrun] at hm
        simp at hm
      · have hemp : (filterSubdatasets catalog options).isEmpty = false := by
          cases hf : filterSubdatasets catalog options with
          | nil => exact absurd hf hnil
          | cons _ _ => rfl
        cases hstart : loopStart fs options with
        | none =>
          have hstart2 := hstart
          unfold loopStart at hstart2
          unfold convert at hrun
          simp [hlist, hmode, hemp, hstart2] at hrun
        | some fs1 =>
          cases hloop : runTasks w.task w.settle inputPath options
              (filterSubdatasets catalog options) w.schedule fs1 with
          | none =>
            have hstart2 := hstart
            unfold loopStart at hstart2
            unfold convert at hrun
            simp [hlist, hmode, hemp, hstart2, hloop] at hrun
          | some st =>
            obtain ⟨out2, m2, hrun2, hm2, hfacts⟩ := convert_reaches_manifest w fs inputPath
              options catalog fs1 st hlist hmode hnil hstart hloop
            rw [hrun] at hrun2
            cases hrun2
            rw [hm] at hm2
            cases hm2
            exact ⟨catalog, fs1, st, rfl, rfl, hnil, rfl, hloop, hfacts⟩

theorem ranResult_facts (e : TaskEngine) (sub : SubdatasetInfo) (outputPath : String)
    (success : Bool) :
    (ranResult e sub outputPath success).outputPath = outputPath ∧
      { (ranResult e sub outputPath success).info with sizeBytes := sub.sizeBytes } = sub ∧
      ((ranResult e sub outputPath success).status = "Failed" ↔ success = false) ∧
      ((ranResult e sub outputPath success).status = "Converted" ↔ success = true) ∧
      (ranResult e sub outputPath success).status ≠ "Skipped" := by
  unfold ranResult
  cases success
  · simp
  · cases e.statSize <;> simp

/-- C4. In every run of `convert` that reaches manifest assembly (the loop having started
every index once, in any order and with any overlap of the iterations), the task list is
not empty, the result list stored in the manifest has the length of the task list, and
for every index `i` the `i`-th result carries the `i`-th descriptor (all fields except
`sizeBytes` unchanged) and the output path `generateOutputPath inputPath sub options` of
that descriptor, whatever the engine answers for the tasks. -/
theorem convert_results_follow_tasks (w : RunWorld) (fs : FileSystem) (inputPath : String)
    (options : ConversionOptions) (out : RunOutcome) (m : Manifest)
    (hrun : convert w fs inputPath options = Except.ok out) (hm : out.manifest = some m)
    (hsched : w.schedule.Perm (List.range m.totalSubdatasets)) :
    ∃ catalog, listSubdatasets w.engine inputPath options = Except.ok catalog ∧
      filterSubdatasets catalog options ≠ [] ∧
      m.processedFiles.length = (filterSubdatasets catalog options).length ∧
      ∀ (i : Nat) (sub : SubdatasetInfo), (filterSubdatasets catalog options)[i]? = some sub →
        ∃ r, m.processedFiles[i]? = some r ∧
          { r.info with sizeBytes := sub.sizeBytes } = sub ∧
          r.outputPath = generateOutputPath inputPath sub options := by
  obtain ⟨catalog, fs1, st, hlist, -, hne, -, hloop, -, hfiles, htotal, -⟩ :=
    convert_manifest_inv w fs inputPath options out m hrun hm
  rw [htotal] at hsched
  obtain ⟨hlen, hslots⟩ := runTasks_slots w.task w.settle inputPath options
    (filterSubdatasets catalog options) w.schedule fs1 st
    (fun i r => ∀ sub, (filterSubdatasets catalog options)[i]? = some sub →
      { r.info with sizeBytes := sub.sizeBytes } = sub ∧
        r.outputPath = generateOutputPath inputPath sub options)
    (by
      intro i sub _ hsub _ sub2 hsub2
      rw [hsub] at hsub2
      cases hsub2
      exact ⟨rfl, rfl⟩)
    (by
      intro i sub _ _ success hsub _ sub2 hsub2
      rw [hsub] at hsub2
      cases hsub2
      obtain ⟨h1, h2, -⟩ := ranResult_facts (w.task i) sub
        (generateOutputPath inputPath sub options) success
      exact ⟨h2, h1⟩)
    hsched hloop
  refine ⟨catalog, hlist, hne, by rw [hfiles]; exact hlen, ?_⟩
  intro i sub hsub
  obtain ⟨r, hr, hP⟩ := hslots i (index_lt_of_task _ i sub hsub)
  exact ⟨r, by rw [hfiles]; exact hr, hP sub hsub⟩

theorem convert_results_follow_tasks_witness :
    convert demoWorld demoFs "scene.h5" {} = Except.ok demoOutcome ∧
    ∃ catalog, listSubdatasets demoWorld.engine "scene.h5" {} = Except.ok catalog ∧
      filterSubdatasets catalog {} ≠ [] ∧
      demoManifest.processedFiles.length = (filterSubdatasets catalog {}).length ∧
      ∀ (i : Nat) (sub : SubdatasetInfo), (filterSubdatasets catalog {})[i]? = some sub →
        ∃ r, demoManifest.processedFiles[i]? = some r ∧
          { r.info with sizeBytes := sub.sizeBytes } = sub ∧
          r.outputPath = generateOutputPath "scene.h5" sub {} :=
  ⟨by rfl,
    convert_results_follow_tasks demoWorld demoFs "scene.h5" {} demoOutcome demoManifest
      (by rfl) (by rfl) (by decide)⟩

/-- C5. For every run of `convert` that reaches manifest assembly (the loop having run
every index once), the manifest satisfies
`convertedCount + skippedCount + failedCount = totalSubdatasets`, where
`totalSubdatasets` is the number of filtered descriptors and each count is the number of
results with that status. -/
theorem manifest_counts_add_up (w : RunWorld) (fs : FileSystem) (inputPath : String)
    (options : ConversionOptions) (out : RunOutcome) (m : Manifest)
    (hrun : convert w fs inputPath options = Except.ok out) (hm : out.manifest = some m)
    (hsched : w.schedule.Perm (List.range m.totalSubdatasets)) :
    m.convertedCount + m.skippedCount + m.failedCount = m.totalSubdatasets ∧
      (∃ catalog, listSubdatasets w.engine inputPath options = Except.ok catalog ∧
        m.totalSubdatasets = (filterSubdatasets catalog options).length) ∧
      m.convertedCount = m.processedFiles.countP (fun r => decide (r.status = "Converted")) ∧
      m.skippedCount = m.processedFiles.countP (fun r => decide (r.status = "Skipped")) ∧
      m.failedCount = m.processedFiles.countP (fun r => decide (r.status = "Failed")) := by
  obtain ⟨catalog, fs1, st, hlist, -, -, -, hloop, -, hfiles, htotal, hc, hs, hf⟩ :=
    convert_manifest_inv w fs inputPath options out m hrun hm
  rw [htotal] at hsched
  obtain ⟨hlen, hslots⟩ := runTasks_slots w.task w.settle inputPath options
    (filterSubdatasets catalog options) w.schedule fs1 st
    (fun _ r => r.status = "Skipped" ∨ r.status = "Converted" ∨ r.status = "Failed")
    (by
      intro i sub _ _ _
      exact Or.inl rfl)
    (by
      intro i sub _ _ success _ _
      cases success
      · exact Or.inr (Or.inr rfl)
      · exact Or.inr (Or.inl rfl))
    hsched hloop
  have hall : ∀ r ∈ m.processedFiles,
      r.status = "Skipped" ∨ r.status = "Converted" ∨ r.status = "Failed" := by
    intro r hr
    rw [hfiles] at hr
    obtain ⟨i, hi, hget⟩ := List.getElem_of_mem hr
    obtain ⟨r2, hr2, hP⟩ := hslots i (by rw [← hlen]; exact hi)
    rw [List.getElem?_eq_getElem hi, hget] at hr2
    cases hr2
    exact hP
  refine ⟨?_, ⟨catalog, hlist, htotal⟩, hc, hs, hf⟩
  rw [hc, hs, hf, count_three_statuses m.processedFiles hall, hfiles, hlen, htotal]

theorem manifest_counts_add_up_witness :
    convert demoWorld demoFs "scene.h5" {} = Except.ok demoOutcome ∧
    demoManifest.convertedCount + demoManifest.skippedCount + demoManifest.failedCount =
        demoManifest.totalSubdatasets ∧
      (∃ catalog, listSubdatasets demoWorld.engine "scene.h5" {} = Except.ok catalog ∧
        demoManifest.totalSubdatasets = (filterSubdatasets catalog {}).length) ∧
      demoManifest.convertedCount =
        demoManifest.processedFiles.countP (fun r => decide (r.status = "Converted")) ∧
      demoManifest.skippedCount =
        demoManifest.processedFiles.countP (fun r => decide (r.status = "Skipped")) ∧
      demoManifest.failedCount =
        demoManifest.processedFiles.countP (fun r => decide (r.status = "Failed")) :=
  ⟨by rfl,
    manifest_counts_add_up demoWorld demoFs "scene.h5" {} demoOutcome demoManifest (by rfl)
      (by rfl) (by decide)⟩

/-! ## File system: frame facts -/

theorem find_filter_other (files : List (String × String)) (p q : String) (h : q ≠ p) :
    (files.filter fun f => f.1 != p).find? (fun f => f.1 == q) =
      files.find? (fun f => f.1 == q) := by
  induction files with
  | nil => rfl
  | cons f rest ih =>
    simp only [List.filter_cons, List.find?_cons]
    by_cases hf : f.1 = p
    · have e1 : (f.1 != p) = false := by simp [hf]
      have e2 : (f.1 == q) = false := by
        simp only [beq_eq_false_iff_ne, ne_eq, hf]
        exact fun hpq => h hpq.symm
      simp only [e1, e2, Bool.false_eq_true, if_false]
      exact ih
    · have e1 : (f.1 != p) = true := by simp [hf]
      simp only [e1, if_true, List.find?_cons]
      cases (f.1 == q)
      · exact ih
      · rfl

theorem any_filter_other (files : List (String × String)) (p q : String) (h : q ≠ p) :
    (files.filter fun f => f.1 != p).any (fun f => f.1 == q) =
      files.any (fun f => f.1 == q) := by
  induction files with
  | nil => rfl
  | cons f rest ih =>
    simp only [List.filter_cons, List.any_cons]
    by_cases hf : f.1 = p
    · have e1 : (f.1 != p) = false := by simp [hf]
      have e2 : (f.1 == q) = false := by
        simp only [beq_eq_false_iff_ne, ne_eq, hf]
        exact fun hpq => h hpq.symm
      simp only [e1, e2, Bool.false_eq_true, if_false, Bool.false_or]
      exact ih
    · have e1 : (f.1 != p) = true := by simp [hf]
      simp only [e1, if_true, List.any_cons, ih]

theorem readFile_writeFile_other (fs : FileSystem) (p content q : String) (h : q ≠ p) :
    readFile (writeFile fs p content) q = readFile fs q := by
  unfold readFile writeFile
  have e : (p == q) = false := by
    simp only [beq_eq_false_iff_ne, ne_eq]
    exact fun hpq => h hpq.symm
  simp only [List.find?_cons, e, find_filter_other fs.files p q h]

theorem fsExists_writeFile (fs : FileSystem) (p content q : String) :
    fsExists (writeFile fs p content) q = (decide (q = p) || fsExists fs q) := by
  unfold fsExists writeFile
  by_cases h : q = p
  · subst h
    simp
  · have e : (p == q) = false := by
      simp only [beq_eq_false_iff_ne, ne_eq]
      exact fun hpq => h hpq.symm
    simp only [List.any_cons, any_filter_other fs.files p q h, e, h, decide_False,
      Bool.false_or]

theorem createDirectories_some (fs : FileSystem) (p : String) (fs1 : FileSystem)
    (h : createDirectories fs p = some fs1) :
    fs1 = { fs with
      dirs := fs.dirs ++ (dirChain [] p.data).filter fun d => !fs.dirs.contains d } := by
  unfold createDirectories at h
  split at h
  · cases h
  · split at h
    · cases h
    · cases h
      rfl

theorem readFile_createDirectories (fs : FileSystem) (p q : String) (fs1 : FileSystem)
    (h : createDirectories fs p = some fs1) : readFile fs1 q = readFile fs q := by
  rw [createDirectories_some fs p fs1 h]
  rfl

theorem fsExists_createDirectories (fs : FileSystem) (p q : String) (fs1 : FileSystem)
    (h : createDirectories fs p = some fs1) :
    fsExists fs1 q = (fsExists fs q || decide (q ∈ dirChain [] p.data)) := by
  rw [createDirectories_some fs p fs1 h]
  unfold fsExists
  by_cases h1 : q ∈ fs.dirs <;> by_cases h2 : q ∈ dirChain [] p.data <;> simp [h1, h2]

theorem fsExists_applyWrite_mono (written : Option String) (fs : FileSystem) (p q : String)
    (h : fsExists fs q = true) : fsExists (applyWrite written fs p) q = true := by
  cases written with
  | none => exact h
  | some content =>
    show fsExists (writeFile fs p content) q = true
    rw [fsExists_writeFile, h]
    simp

theorem readFile_applyWrite_other (written : Option String) (fs : FileSystem) (p q : String)
    (h : q ≠ p) : readFile (applyWrite written fs p) q = readFile fs q := by
  cases written with
  | none => rfl
  | some content => exact readFile_writeFile_other fs p content q h

/-- A pathway that returns leaves the file system as it is or writes the output file;
what it reports and what it writes do not depend on the file system, and neither does
whether it throws. -/
theorem dispatch_shape (e : TaskEngine) (sub : SubdatasetInfo) (outputPath : String)
    (options : ConversionOptions) :
    (∀ fs : FileSystem, dispatch e fs sub outputPath options = none) ∨
    ∃ (success : Bool) (written : Option String), ∀ fs : FileSystem,
      dispatch e fs sub outputPath options =
        some (success, applyWrite written fs outputPath) := by
  unfold dispatch convert1DToJson convertToCOG
  by_cases hd : sub.dimensions = 1
  · simp only [hd, if_true]
    cases e.sourceOpens <;> cases e.bufferThrows <;> cases e.readOk <;> cases e.jsonOpens <;>
      cases e.dumpThrows <;>
      first
        | exact Or.inl fun _ => rfl
        | exact Or.inr ⟨false, none, fun _ => rfl⟩
        | exact Or.inr ⟨true, some e.jsonText, fun _ => rfl⟩
  · simp only [hd, if_false]
    right
    cases e.sourceOpens
    · exact ⟨false, none, fun _ => rfl⟩
    · cases hb : e.rasterBytes <;> cases e.translateOk
      · exact ⟨false, none, fun _ => rfl⟩
      · exact ⟨true, none, fun _ => rfl⟩
      · exact ⟨false, some _, fun _ => rfl⟩
      · exact ⟨true, some _, fun _ => rfl⟩

theorem dispatch_written (e : TaskEngine) (fs : FileSystem) (sub : SubdatasetInfo)
    (outputPath : String) (options : ConversionOptions) (success : Bool) (fs2 : FileSystem)
    (h : dispatch e fs sub outputPath options = some (success, fs2)) :
    ∃ written : Option String, fs2 = applyWrite written fs outputPath ∧
      ∀ fs1 : FileSystem,
        dispatch e fs1 sub outputPath options =
          some (success, applyWrite written fs1 outputPath) := by
  rcases dispatch_shape e sub outputPath options with hnone | ⟨b, written, hsh⟩
  · rw [hnone fs] at h
    cases h
  · rw [hsh fs] at h
    cases h
    exact ⟨written, rfl, hsh⟩

theorem loopStart_frame (fs : FileSystem) (options : ConversionOptions) (q : String)
    (fs1 : FileSystem) (h : loopStart fs options = some fs1) :
    (fsExists fs q = true → fsExists fs1 q = true) ∧ readFile fs1 q = readFile fs q := by
  unfold loopStart at h
  split at h
  · refine ⟨?_, readFile_createDirectories _ _ _ _ h⟩
    intro hq
    rw [fsExists_createDirectories _ _ _ _ h, hq]
    rfl
  · cases h
    exact ⟨fun hq => hq, rfl⟩

/-! ## Conversion orchestrator: existing outputs are skipped -/

/-- One step of the loop keeps an existing output of task `i` in place, records nothing
for task `i`, puts no task with that output path in flight, and stores the skipped result
when it is the start of `i`. -/
theorem runStep_keeps_existing (engine : Nat → TaskEngine) (inputPath : String)
    (options : ConversionOptions) (tasks : List SubdatasetInfo) (fs0 : FileSystem) (i : Nat)
    (sub : SubdatasetInfo) (hover : options.overwrite = false) (hsub : tasks[i]? = some sub)
    (st st1 : LoopState) (s : Step)
    (hs : runStep engine inputPath options tasks st s = some st1)
    (hlen : st.results.length = tasks.length)
    (hex : fsExists st.fs (generateOutputPath inputPath sub options) = true)
    (hread : readFile st.fs (generateOutputPath inputPath sub options) =
      readFile fs0 (generateOutputPath inputPath sub options))
    (hev : ∀ ev ∈ st.events, ev.1 ≠ i)
    (hfl : ∀ j ∈ st.inFlight, ∀ subj, tasks[j]? = some subj →
      generateOutputPath inputPath subj options ≠ generateOutputPath inputPath sub options) :
    fsExists st1.fs (generateOutputPath inputPath sub options) = true ∧
      readFile st1.fs (generateOutputPath inputPath sub options) =
        readFile fs0 (generateOutputPath inputPath sub options) ∧
      (∀ ev ∈ st1.events, ev.1 ≠ i) ∧
      (∀ j ∈ st1.inFlight, ∀ subj, tasks[j]? = some subj →
        generateOutputPath inputPath subj options ≠
          generateOutputPath inputPath sub options) ∧
      st1.results[i]? =
        if s = Step.start i then
          some { info := sub, status := "Skipped",
                 outputPath := generateOutputPath inputPath sub options }
        else st.results[i]? := by
  have hi : i < tasks.length := index_lt_of_task tasks i sub hsub
  rcases runStep_cases engine inputPath options tasks st st1 s hs with
    ⟨h1, hnone, -⟩ | ⟨j, subj, hj, hsubj, hg, h1⟩ | ⟨j, subj, fs1, hj, hsubj, hg, hc, h1⟩ |
    ⟨j, subj, success, fs2, hj, hin, hsubj, hd, h1⟩
  · rw [h1]
    refine ⟨hex, hread, hev, hfl, ?_⟩
    have hne : s ≠ Step.start i := by
      intro h
      rw [hnone i h] at hsub
      cases hsub
    rw [if_neg hne]
  · rw [h1, hj]
    refine ⟨hex, hread, hev, hfl, ?_⟩
    by_cases hji : j = i
    · subst hji
      rw [hsub] at hsubj
      cases hsubj
      simp [hlen, hi]
    · have hne : Step.start j ≠ Step.start i := fun h => hji (Step.start.inj h)
      simp only [List.getElem?_set, if_neg hji, if_neg hne]
  · have hpath : generateOutputPath inputPath subj options ≠
        generateOutputPath inputPath sub options := by
      intro h
      rw [h, hex, hover] at hg
      cases hg
    have hji : j ≠ i := by
      intro h
      rw [h, hsub] at hsubj
      cases hsubj
      exact hpath rfl
    have hne : Step.start j ≠ Step.start i := fun h => hji (Step.start.inj h)
    rw [h1, hj]
    refine ⟨?_, ?_, ?_, ?_, ?_⟩
    · show fsExists fs1 _ = true
      rw [fsExists_createDirectories _ _ _ _ hc, hex]
      rfl
    · show readFile fs1 _ = _
      rw [readFile_createDirectories _ _ _ _ hc]
      exact hread
    · intro ev hmem
      rcases List.mem_append.mp hmem with h | h
      · exact hev ev h
      · simp only [List.mem_singleton] at h
        rw [h]
        exact hji
    · intro j2 hmem subj2 hsubj2
      rcases List.mem_cons.mp hmem with h | h
      · rw [h, hsubj] at hsubj2
        cases hsubj2
        exact hpath
      · exact hfl j2 h subj2 hsubj2
    · rw [if_neg hne]
  · have hpath : generateOutputPath inputPath subj options ≠
        generateOutputPath inputPath sub options := hfl j hin subj hsubj
    have hji : j ≠ i := by
      intro h
      rw [h, hsub] at hsubj
      cases hsubj
      exact hpath rfl
    obtain ⟨written, hfs2, -⟩ := dispatch_written _ _ _ _ _ _ _ hd
    rw [h1, hj]
    refine ⟨?_, ?_, ?_, ?_, ?_⟩
    · show fsExists fs2 _ = true
      rw [hfs2]
      exact fsExists_applyWrite_mono _ _ _ _ hex
    · show readFile fs2 _ = _
      rw [hfs2, readFile_applyWrite_other _ _ _ _ (fun h => hpath h.symm)]
      exact hread
    · intro ev hmem
      rcases List.mem_append.mp hmem with h | h
      · exact hev ev h
      · simp only [List.mem_singleton] at h
        rw [h]
        exact hji
    · intro j2 hmem subj2 hsubj2
      exact hfl j2 (List.mem_filter.mp hmem).1 subj2 hsubj2
    · have hne : Step.finish j ≠ Step.start i := by
        intro h
        cases h
      simp only [List.getElem?_set, if_neg hji, if_neg hne]

theorem runSteps_keeps_existing (engine : Nat → TaskEngine) (inputPath : String)
    (options : ConversionOptions) (tasks : List SubdatasetInfo) (fs0 : FileSystem) (i : Nat)
    (sub : SubdatasetInfo) (hover : options.overwrite = false) (hsub : tasks[i]? = some sub) :
    ∀ (steps : List Step) (st st2 : LoopState),
      runSteps engine inputPath options tasks steps st = some st2 →
      st.results.length = tasks.length →
      fsExists st.fs (generateOutputPath inputPath sub options) = true →
      readFile st.fs (generateOutputPath inputPath sub options) =
        readFile fs0 (generateOutputPath inputPath sub options) →
      (∀ ev ∈ st.events, ev.1 ≠ i) →
      (∀ j ∈ st.inFlight, ∀ subj, tasks[j]? = some subj →
        generateOutputPath inputPath subj options ≠
          generateOutputPath inputPath sub options) →
      fsExists st2.fs (generateOutputPath inputPath sub options) = true ∧
        readFile st2.fs (generateOutputPath inputPath sub options) =
          readFile fs0 (generateOutputPath inputPath sub options) ∧
        (∀ ev ∈ st2.events, ev.1 ≠ i) ∧
        ((Step.start i ∈ steps ∨ st.results[i]? =
            some { info := sub, status := "Skipped",
                   outputPath := generateOutputPath inputPath sub options }) →
          st2.results[i]? =
            some { info := sub, status := "Skipped",
                   outputPath := generateOutputPath inputPath sub options }) := by
  intro steps
  induction steps with
  | nil =>
    intro st st2 h _ hex hread hev _
    cases h
    refine ⟨hex, hread, hev, ?_⟩
    intro h
    rcases h with h | h
    · simp at h
    · exact h
  | cons s rest ih =>
    intro st st2 h hlen hex hread hev hfl
    obtain ⟨st1, hs, hrest⟩ := runSteps_cons engine inputPath options tasks s rest st st2 h
    obtain ⟨h1, h2, h3, h4, h5⟩ := runStep_keeps_existing engine inputPath options tasks fs0 i
      sub hover hsub st st1 s hs hlen hex hread hev hfl
    obtain ⟨g1, g2, g3, g4⟩ := ih st1 st2 hrest
      ((runStep_length engine inputPath options tasks st st1 s hs).trans hlen) h1 h2 h3 h4
    refine ⟨g1, g2, g3, ?_⟩
    intro h
    apply g4
    by_cases hsi : s = Step.start i
    · right
      rw [h5, if_pos hsi]
    · rcases h with h | h
      · left
        rcases List.mem_cons.mp h with h | h
        · exact absurd h.symm hsi
        · exact h
      · right
        rw [h5, if_neg hsi]
        exact h

/-- C6. For every task, if `options.overwrite` is false and the planned output path
already exists in the file system before the run, then: in every run that reaches
manifest assembly the result of the task in the manifest has status `Skipped` and the run
records neither a directory creation nor a pathway call for the task; the start of the
task, on any state of the loop whose file system has the path, stores the skipped result
and leaves the file system, the record and the tasks in flight as they are; and when the
loop has run to its end the path still exists with its content unchanged. -/
theorem existing_output_is_skipped (w : RunWorld) (fs : FileSystem) (inputPath : String)
    (options : ConversionOptions) (catalog : List SubdatasetInfo) (i : Nat)
    (sub : SubdatasetInfo)
    (hlist : listSubdatasets w.engine inputPath options = Except.ok catalog)
    (hsub : (filterSubdatasets catalog options)[i]? = some sub)
    (hsched : w.schedule.Perm (List.range (filterSubdatasets catalog options).length))
    (hover : options.overwrite = false)
    (hex : fsExists fs (generateOutputPath inputPath sub options) = true) :
    (∀ (out : RunOutcome) (m : Manifest), convert w fs inputPath options = Except.ok out →
      out.manifest = some m →
      m.processedFiles[i]? =
        some { info := sub, status := "Skipped",
               outputPath := generateOutputPath inputPath sub options } ∧
      ∀ ev ∈ out.events, ev.1 ≠ i) ∧
    (∀ st : LoopState, fsExists st.fs (generateOutputPath inputPath sub options) = true →
      runStep w.task inputPath options (filterSubdatasets catalog options) st (Step.start i) =
        some { st with
          results := st.results.set i
            { info := sub, status := "Skipped",
              outputPath := generateOutputPath inputPath sub options } }) ∧
    (∀ (fs1 : FileSystem) (st : LoopState), loopStart fs options = some fs1 →
      runTasks w.task w.settle inputPath options (filterSubdatasets catalog options)
        w.schedule fs1 = some st →
      fsExists st.fs (generateOutputPath inputPath sub options) = true ∧
        readFile st.fs (generateOutputPath inputPath sub options) =
          readFile fs (generateOutputPath inputPath sub options)) := by
  have hi : i < (filterSubdatasets catalog options).length := index_lt_of_task _ i sub hsub
  have hloopfacts : ∀ (fs1 : FileSystem) (st : LoopState), loopStart fs options = some fs1 →
      runTasks w.task w.settle inputPath options (filterSubdatasets catalog options)
        w.schedule fs1 = some st →
      fsExists st.fs (generateOutputPath inputPath sub options) = true ∧
        readFile st.fs (generateOutputPath inputPath sub options) =
          readFile fs (generateOutputPath inputPath sub options) ∧
        (∀ ev ∈ st.events, ev.1 ≠ i) ∧
        st.results[i]? =
          some { info := sub, status := "Skipped",
                 outputPath := generateOutputPath inputPath sub options } := by
    intro fs1 st hstart hloop
    obtain ⟨hstartEx, hstartRead⟩ :=
      loopStart_frame fs options (generateOutputPath inputPath sub options) fs1 hstart
    unfold runTasks at hloop
    obtain ⟨h1, h2, h3, h4⟩ := runSteps_keeps_existing w.task inputPath options
      (filterSubdatasets catalog options) fs i sub hover hsub _ _ _ hloop
      (by simp) (hstartEx hex) hstartRead (by simp) (by simp)
    refine ⟨h1, h2, h3, h4 (Or.inl ?_)⟩
    unfold loopSteps
    exact List.mem_append_left _
      (start_mem_loopSteps w.schedule w.settle i (hsched.mem_iff.mpr (List.mem_range.mpr hi)))
  refine ⟨?_, ?_, ?_⟩
  · intro out m hrun hm
    obtain ⟨catalog2, fs1, st, hlist2, -, -, hstart, hloop, hevents, hfiles, -⟩ :=
      convert_manifest_inv w fs inputPath options out m hrun hm
    rw [hlist] at hlist2
    cases hlist2
    obtain ⟨-, -, h3, h4⟩ := hloopfacts fs1 st hstart hloop
    exact ⟨by rw [hfiles]; exact h4, by rw [hevents]; exact h3⟩
  · intro st hex1
    unfold runStep
    simp only [hsub]
    rw [startTask_skip _ _ _ _ (by rw [hex1, hover]; rfl)]
  · intro fs1 st hstart hloop
    obtain ⟨h1, h2, -, -⟩ := hloopfacts fs1 st hstart hloop
    exact ⟨h1, h2⟩

theorem existing_output_is_skipped_witness :
    listSubdatasets demoWorld.engine "scene.h5" {} = Except.ok demoCatalog ∧
    (filterSubdatasets demoCatalog {})[0]? = some demoImage ∧
    fsExists demoFs (generateOutputPath "scene.h5" demoImage {}) = true ∧
    convert demoWorld demoFs "scene.h5" {} = Except.ok demoOutcome ∧
    (∀ (out : RunOutcome) (m : Manifest), convert demoWorld demoFs "scene.h5" {} = Except.ok out →
      out.manifest = some m →
      m.processedFiles[0]? =
        some { info := demoImage, status := "Skipped",
               outputPath := generateOutputPath "scene.h5" demoImage {} } ∧
      ∀ ev ∈ out.events, ev.1 ≠ 0) ∧
    (∀ st : LoopState, fsExists st.fs (generateOutputPath "scene.h5" demoImage {}) = true →
      runStep demoWorld.task "scene.h5" {} (filterSubdatasets demoCatalog {}) st (Step.start 0) =
        some { st with
          results := st.results.set 0
            { info := demoImage, status := "Skipped",
              outputPath := generateOutputPath "scene.h5" demoImage {} } }) ∧
    (∀ (fs1 : FileSystem) (st : LoopState), loopStart demoFs {} = some fs1 →
      runTasks demoWorld.task demoWorld.settle "scene.h5" {} (filterSubdatasets demoCatalog {})
        demoWorld.schedule fs1 = some st →
      fsExists st.fs (generateOutputPath "scene.h5" demoImage {}) = true ∧
        readFile st.fs (generateOutputPath "scene.h5" demoImage {}) =
          readFile demoFs (generateOutputPath "scene.h5" demoImage {})) :=
  ⟨by rfl, by decide, by decide, by rfl,
    existing_output_is_skipped demoWorld demoFs "scene.h5" {} demoCatalog 0 demoImage (by rfl)
      (by decide) (by decide) (by decide) (by decide)⟩

/-! ## Conversion orchestrator: what one task does to another -/

/-- When the two iterations overlap, both tasks planned to the same path pass the guard
and both are converted. -/
theorem overlapping_tasks_both_convert :
    manifestStatuses (convert clashWorldOverlapping {} "scene.h5" {}) =
      some [("Converted", "output/scene/Temperature.json"),
            ("Converted", "output/scene/Temperature.json")] := by
  decide

/-- An exception that leaves a pathway ends the run, whether overwriting is enabled or
not: no manifest is assembled and no task gets a result. -/
theorem throwing_pathway_ends_run :
    convert clashWorldThrowing {} "scene.h5" {} = Except.error ConvertError.terminated ∧
      convert clashWorldThrowing {} "scene.h5" { overwrite := true } =
        Except.error ConvertError.terminated :=
  ⟨by rfl, by rfl⟩

/-- A regular file where the directory of a task is to be created ends the run, the
task whose output exists included; a regular file at the output directory makes
`convert` throw before the loop. -/
theorem blocked_directory_ends_run :
    convert demoWorld blockedFs "scene.h5" {} = Except.error ConvertError.terminated ∧
      convert demoWorld { files := [("output", "")] } "scene.h5" {} =
        Except.error ConvertError.directoryError :=
  ⟨by rfl, by rfl⟩

/-! ## Descriptor catalog builder: the metadata loop -/

theorem readItem_eq (tempMap : List (Nat × SubdatasetInfo)) (item : String) :
    readItem tempMap item =
      match matchingEntry item with
      | none => some tempMap
      | some e => if e.num ≤ 2147483647 then some (applyEntry tempMap e) else none := by
  unfold readItem matchingEntry
  cases find item "=" with
  | none => rfl
  | some pos =>
    simp only
    cases regexSearchKey "_NAME" (substrLen item 0 pos).data with
    | some digits =>
      by_cases hr : decimalValue digits ≤ 2147483647 <;> simp [stoi, applyEntry, hr]
    | none =>
      simp only
      cases regexSearchKey "_DESC" (substrLen item 0 pos).data with
      | some digits =>
        by_cases hr : decimalValue digits ≤ 2147483647 <;> simp [stoi, applyEntry, hr]
      | none => rfl

theorem readItems_eq :
    ∀ (metadata : List String) (tempMap : List (Nat × SubdatasetInfo)),
      readItems metadata tempMap =
        if ∀ e ∈ tableEntries metadata, e.num ≤ 2147483647 then
          some ((tableEntries metadata).foldl applyEntry tempMap)
        else none := by
  intro metadata
  induction metadata with
  | nil => intro tempMap; simp [readItems, tableEntries]
  | cons item rest ih =>
    intro tempMap
    rw [readItems, readItem_eq]
    cases hm : matchingEntry item with
    | none =>
      have ht : tableEntries (item :: rest) = tableEntries rest :=
        List.filterMap_cons_none hm
      simp only [ih, ht]
    | some e =>
      have ht : tableEntries (item :: rest) = e :: tableEntries rest :=
        List.filterMap_cons_some hm
      by_cases hr : e.num ≤ 2147483647
      · simp only [hr, if_true, ih, ht, List.foldl_cons, List.forall_mem_cons, true_and]
      · simp only [hr, if_false, ht, List.forall_mem_cons, false_and]

theorem mapModify_keys (f : SubdatasetInfo → SubdatasetInfo) (k : Nat) :
    ∀ m : List (Nat × SubdatasetInfo),
      (mapModify m k f).map Prod.fst =
        if k ∈ m.map Prod.fst then m.map Prod.fst else m.map Prod.fst ++ [k] := by
  intro m
  induction m with
  | nil => simp [mapModify]
  | cons kv rest ih =>
    obtain ⟨k2, v⟩ := kv
    unfold mapModify
    by_cases h : k2 = k
    · simp [h]
    · have h2 : ¬ k = k2 := fun h3 => h h3.symm
      simp only [h, if_false, List.map_cons, ih, List.mem_cons, h2, false_or]
      split <;> simp

theorem mapModify_mem (f : SubdatasetInfo → SubdatasetInfo) (k : Nat) :
    ∀ (m : List (Nat × SubdatasetInfo)), (m.map Prod.fst).Nodup →
      ∀ kv : Nat × SubdatasetInfo, kv ∈ mapModify m k f →
      (kv.1 ≠ k ∧ kv ∈ m) ∨
        (kv.1 = k ∧ ∃ v, ((k, v) ∈ m ∨ (v = {} ∧ k ∉ m.map Prod.fst)) ∧ kv.2 = f v) := by
  intro m
  induction m with
  | nil =>
    intro _ kv h
    simp only [mapModify, List.mem_singleton] at h
    right
    rw [h]
    exact ⟨rfl, {}, Or.inr ⟨rfl, by simp⟩, rfl⟩
  | cons kv2 rest ih =>
    obtain ⟨k2, v2⟩ := kv2
    intro hnd kv h
    obtain ⟨hfresh, hnd2⟩ := List.nodup_cons.mp hnd
    unfold mapModify at h
    by_cases hk : k2 = k
    · simp only [hk, if_true, List.mem_cons] at h
      rcases h with h | h
      · right
        rw [h]
        exact ⟨rfl, v2, Or.inl (by simp [hk]), rfl⟩
      · by_cases hkv : kv.1 = k
        · exfalso
          have hmem := List.mem_map_of_mem Prod.fst h
          rw [hkv, ← hk] at hmem
          exact hfresh hmem
        · left
          exact ⟨hkv, List.mem_cons_of_mem _ h⟩
    · simp only [hk, if_false, List.mem_cons] at h
      rcases h with h | h
      · left
        rw [h]
        exact ⟨hk, List.mem_cons_self _ _⟩
      · rcases ih hnd2 kv h with ⟨h1, h2⟩ | ⟨h1, v, h2, h3⟩
        · left
          exact ⟨h1, List.mem_cons_of_mem _ h2⟩
        · right
          refine ⟨h1, v, ?_, h3⟩
          rcases h2 with h2 | ⟨h2, h4⟩
          · exact Or.inl (List.mem_cons_of_mem _ h2)
          · right
            refine ⟨h2, ?_⟩
            simp only [List.map_cons, List.mem_cons, not_or]
            exact ⟨fun h5 => hk h5.symm, h4⟩

theorem lastValue_snoc (es : List Entry) (e : Entry) (b : Bool) (n : Nat) :
    lastValue (es ++ [e]) b n =
      if (e.isName == b && e.num == n) = true then some e.value else lastValue es b n := by
  unfold lastValue
  rw [List.filter_append]
  by_cases h : (e.isName == b && e.num == n) = true
  · rw [if_pos h]
    have hf : List.filter (fun e => e.isName == b && e.num == n) [e] = [e] := by
      simp only [List.filter_cons, h, if_true, List.filter_nil]
    rw [hf, List.getLast?_append_of_ne_nil _ (by simp)]
    rfl
  · rw [if_neg h]
    have hf : List.filter (fun e => e.isName == b && e.num == n) [e] = [] := by
      simp only [List.filter_cons, h, Bool.false_eq_true, if_false, List.filter_nil]
    rw [hf, List.append_nil]

theorem provisional_snoc_other (es : List Entry) (e : Entry) (n : Nat) (h : e.num ≠ n) :
    provisional (es ++ [e]) n = provisional es n := by
  have hb : ∀ b : Bool, ¬ ((e.isName == b && e.num == n) = true) := by
    intro b hb
    simp only [Bool.and_eq_true, beq_iff_eq] at hb
    exact h hb.2
  unfold provisional
  rw [lastValue_snoc, lastValue_snoc, if_neg (hb true), if_neg (hb false)]

theorem provisional_snoc_name (es : List Entry) (e : Entry) (h : e.isName = true) :
    provisional (es ++ [e]) e.num =
      { provisional es e.num with path := e.value, name := extractSubdatasetName e.value } := by
  have h1 : (e.isName == true && e.num == e.num) = true := by simp [h]
  have h2 : ¬ ((e.isName == false && e.num == e.num) = true) := by simp [h]
  unfold provisional
  rw [lastValue_snoc, lastValue_snoc, if_pos h1, if_neg h2]
  rfl

theorem provisional_snoc_desc (es : List Entry) (e : Entry) (h : e.isName = false) :
    provisional (es ++ [e]) e.num = { provisional es e.num with description := e.value } := by
  have h1 : ¬ ((e.isName == true && e.num == e.num) = true) := by simp [h]
  have h2 : (e.isName == false && e.num == e.num) = true := by simp [h]
  unfold provisional
  rw [lastValue_snoc, lastValue_snoc, if_neg h1, if_pos h2]
  rfl

theorem provisional_absent (es : List Entry) (n : Nat) (h : ∀ e ∈ es, e.num ≠ n) :
    provisional es n = {} := by
  have hnone : ∀ b : Bool, lastValue es b n = none := by
    intro b
    unfold lastValue
    have hf : List.filter (fun e => e.isName == b && e.num == n) es = [] := by
      rw [List.filter_eq_nil_iff]
      intro e he hb
      simp only [Bool.and_eq_true, beq_iff_eq] at hb
      exact h e he hb.2
    rw [hf]
    rfl
  unfold provisional
  rw [hnone true, hnone false]
  rfl

/-- A single update through `mapModify` of a map without duplicate keys whose values are
given by `g` (a missing key standing for the value-initialised descriptor). -/
theorem mapModify_inv (k : Nat) (g : Nat → SubdatasetInfo)
    (m : List (Nat × SubdatasetInfo)) (f : SubdatasetInfo → SubdatasetInfo)
    (hnd : (m.map Prod.fst).Nodup)
    (hval : ∀ kv ∈ m, kv.2 = g kv.1)
    (habsent : k ∉ m.map Prod.fst → g k = {}) :
    ((mapModify m k f).map Prod.fst).Nodup ∧
      (∀ n, n ∈ (mapModify m k f).map Prod.fst ↔ (n ∈ m.map Prod.fst ∨ n = k)) ∧
      ∀ kv ∈ mapModify m k f, kv.2 = if kv.1 = k then f (g k) else g kv.1 := by
  refine ⟨?_, ?_, ?_⟩
  · rw [mapModify_keys]
    split
    · exact hnd
    · rename_i h
      rw [List.nodup_append]
      refine ⟨hnd, by simp, ?_⟩
      intro a ha hb
      rw [List.mem_singleton] at hb
      exact h (hb ▸ ha)
  · intro n
    rw [mapModify_keys]
    split
    · rename_i h
      constructor
      · intro hn; exact Or.inl hn
      · rintro (hn | hn)
        · exact hn
        · rw [hn]; exact h
    · simp
  · intro kv hkv
    rcases mapModify_mem f k m hnd kv hkv with ⟨h1, h2⟩ | ⟨h1, v, h2, h3⟩
    · rw [if_neg h1]
      exact hval kv h2
    · rw [if_pos h1, h3]
      rcases h2 with h2 | ⟨h2, h4⟩
      · have := hval _ h2
        simp only at this
        rw [this]
      · rw [h2, habsent h4]

theorem applyEntry_inv (es : List Entry) (e : Entry) (m : List (Nat × SubdatasetInfo))
    (h : MapInv es m) : MapInv (es ++ [e]) (applyEntry m e) := by
  obtain ⟨hnd, hkeys, hval⟩ := h
  have habsent : e.num ∉ m.map Prod.fst → provisional es e.num = {} := by
    intro hno
    apply provisional_absent
    intro x hx hnum
    exact hno ((hkeys e.num).mpr ⟨x, hx, hnum⟩)
  have hkeys2 : ∀ n, (n ∈ m.map Prod.fst ∨ n = e.num) ↔ ∃ x ∈ es ++ [e], x.num = n := by
    intro n
    rw [hkeys n]
    constructor
    · rintro (⟨x, hx, hn⟩ | hn)
      · exact ⟨x, List.mem_append_left _ hx, hn⟩
      · exact ⟨e, by simp, hn.symm⟩
    · rintro ⟨x, hx, hn⟩
      rcases List.mem_append.mp hx with hx | hx
      · exact Or.inl ⟨x, hx, hn⟩
      · rw [List.mem_singleton] at hx
        exact Or.inr (by rw [← hn, hx])
  unfold applyEntry
  cases hkind : e.isName with
  | false =>
    simp only [Bool.false_eq_true, if_false]
    obtain ⟨g1, g2, g3⟩ := mapModify_inv e.num (provisional es) m
      (fun v => { v with description := e.value }) hnd hval habsent
    refine ⟨g1, fun n => (g2 n).trans (hkeys2 n), ?_⟩
    intro kv hkv
    rw [g3 kv hkv]
    split
    · rename_i hk
      rw [hk, provisional_snoc_desc es e hkind]
    · rename_i hk
      rw [provisional_snoc_other es e kv.1 (fun h => hk h.symm)]
  | true =>
    simp only [if_true]
    obtain ⟨g1, g2, g3⟩ := mapModify_inv e.num (provisional es) m
      (fun v => { v with path := e.value }) hnd hval habsent
    obtain ⟨k1, k2, k3⟩ := mapModify_inv e.num
      (fun n => if n = e.num then
        (fun v : SubdatasetInfo => { v with path := e.value }) (provisional es e.num)
        else provisional es n)
      (mapModify m e.num fun v => { v with path := e.value })
      (fun v => { v with name := extractSubdatasetName e.value }) g1 g3
      (fun hno => absurd ((g2 e.num).mpr (Or.inr rfl)) hno)
    refine ⟨k1, ?_, ?_⟩
    · intro n
      rw [k2 n, g2 n]
      rw [← hkeys2 n]
      constructor
      · rintro ((h | h) | h)
        · exact Or.inl h
        · exact Or.inr h
        · exact Or.inr h
      · rintro (h | h)
        · exact Or.inl (Or.inl h)
        · exact Or.inr h
    · intro kv hkv
      rw [k3 kv hkv]
      split
      · rename_i hk
        rw [hk, provisional_snoc_name es e hkind, if_pos rfl]
      · rename_i hk
        rw [provisional_snoc_other es e kv.1 (fun h => hk h.symm)]

theorem foldl_applyEntry_inv (es : List Entry) : MapInv es (es.foldl applyEntry []) := by
  induction es using List.reverseRecOn with
  | nil => exact ⟨by simp, by simp, by simp⟩
  | append_singleton l e ih =>
    rw [List.foldl_append]
    exact applyEntry_inv l e _ ih

/-! ## Descriptor catalog builder: ordering and geometry -/

theorem strLess_asymm : ∀ a b : List Char, strLess a b = true → strLess b a = false := by
  intro a
  induction a with
  | nil =>
    intro b h
    cases b with
    | nil => rfl
    | cons y ys => rfl
  | cons x xs ih =>
    intro b h
    cases b with
    | nil => simp [strLess] at h
    | cons y ys =>
      simp only [strLess] at h ⊢
      by_cases h1 : x.toNat < y.toNat
      · have h2 : ¬ y.toNat < x.toNat := by omega
        simp [h1, h2]
      · by_cases h2 : y.toNat < x.toNat
        · simp [h1, h2] at h
        · simp only [h1, h2, if_false] at h ⊢
          exact ih ys h

theorem strLess_trans_neg : ∀ a b c : List Char,
    strLess b a = false → strLess c b = false → strLess c a = false := by
  intro a
  induction a with
  | nil =>
    intro b c _ _
    cases c <;> rfl
  | cons x xs ih =>
    intro b c hba hcb
    cases c with
    | nil =>
      cases b with
      | nil => exact hba
      | cons y ys => simp [strLess] at hcb
    | cons z zs =>
      cases b with
      | nil => simp [strLess] at hba
      | cons y ys =>
        simp only [strLess] at hba hcb ⊢
        by_cases h1 : y.toNat < x.toNat
        · simp [h1] at hba
        · by_cases h2 : z.toNat < y.toNat
          · simp [h2] at hcb
          · by_cases h3 : x.toNat < y.toNat
            · have h4 : ¬ z.toNat < x.toNat := by omega
              have h5 : x.toNat < z.toNat := by omega
              simp [h4, h5]
            · by_cases h6 : y.toNat < z.toNat
              · have h4 : ¬ z.toNat < x.toNat := by omega
                have h5 : x.toNat < z.toNat := by omega
                simp [h4, h5]
              · have h4 : ¬ z.toNat < x.toNat := by omega
                have h5 : ¬ x.toNat < z.toNat := by omega
                simp only [h1, h3, if_false] at hba
                simp only [h2, h6, if_false] at hcb
                simp only [h4, h5, if_false]
                exact ih ys zs hba hcb

theorem nameOrdered_total (a b : SubdatasetInfo) : nameOrdered a b ∨ nameOrdered b a := by
  unfold nameOrdered
  cases h : strLess b.name.data a.name.data
  · exact Or.inl rfl
  · exact Or.inr (strLess_asymm _ _ h)

theorem nameOrdered_trans (a b c : SubdatasetInfo) (hab : nameOrdered a b)
    (hbc : nameOrdered b c) : nameOrdered a c := by
  unfold nameOrdered at hab hbc ⊢
  exact strLess_trans_neg a.name.data b.name.data c.name.data hab hbc

theorem sorted_by_name (l : List SubdatasetInfo) :
    (l.insertionSort nameOrdered).Sorted nameOrdered :=
  @List.sorted_insertionSort _ nameOrdered _ ⟨nameOrdered_total⟩ ⟨nameOrdered_trans⟩ l

theorem extractBandInfo_keeps (sub : SubdatasetInfo) :
    (extractBandInfo sub).name = sub.name ∧ (extractBandInfo sub).path = sub.path ∧
      (extractBandInfo sub).description = sub.description ∧
      (extractBandInfo sub).width = sub.width ∧ (extractBandInfo sub).height = sub.height ∧
      (extractBandInfo sub).dimensions = sub.dimensions := by
  unfold extractBandInfo
  split
  · simp
  · dsimp only
    split <;> simp

theorem classifyAndName_keeps (sub : SubdatasetInfo) :
    (classifyAndName sub).name = sub.name ∧ (classifyAndName sub).path = sub.path ∧
      (classifyAndName sub).description = sub.description ∧
      (classifyAndName sub).width = sub.width ∧ (classifyAndName sub).height = sub.height ∧
      (classifyAndName sub).dimensions = sub.dimensions := by
  unfold classifyAndName
  dsimp only
  split
  · exact extractBandInfo_keeps _
  · exact ⟨rfl, rfl, rfl, rfl, rfl, rfl⟩

theorem readGeometry_keeps (engine : RasterEngine) (options : ConversionOptions)
    (sub : SubdatasetInfo) :
    (readGeometry engine options sub).name = sub.name ∧
      (readGeometry engine options sub).path = sub.path ∧
      (readGeometry engine options sub).description = sub.description := by
  unfold readGeometry
  cases engine.openSub sub.path with
  | none => exact ⟨rfl, rfl, rfl⟩
  | some ds =>
    dsimp only
    split <;> exact ⟨rfl, rfl, rfl⟩

theorem readGeometry_geometry (engine : RasterEngine) (options : ConversionOptions)
    (sub : SubdatasetInfo) :
    match engine.openSub sub.path with
    | some ds =>
      (readGeometry engine options sub).width = ds.xSize ∧
        (readGeometry engine options sub).height = ds.ySize ∧
        (readGeometry engine options sub).dimensions =
          if ds.xSize > 1 ∧ ds.ySize > 1 then 2 else 1
    | none => readGeometry engine options sub = sub := by
  unfold readGeometry
  cases engine.openSub sub.path with
  | none => rfl
  | some ds =>
    dsimp only
    split <;> exact ⟨rfl, rfl, rfl⟩

theorem describeSubdataset_keeps (engine : RasterEngine) (options : ConversionOptions)
    (sub : SubdatasetInfo) :
    (describeSubdataset engine options sub).name = sub.name ∧
      (describeSubdataset engine options sub).path = sub.path ∧
      (describeSubdataset engine options sub).description = sub.description := by
  unfold describeSubdataset
  obtain ⟨h1, h2, h3, -⟩ := classifyAndName_keeps (readGeometry engine options sub)
  obtain ⟨g1, g2, g3⟩ := readGeometry_keeps engine options sub
  exact ⟨h1.trans g1, h2.trans g2, h3.trans g3⟩

theorem describeSubdataset_geometry (engine : RasterEngine) (options : ConversionOptions)
    (sub : SubdatasetInfo) :
    match engine.openSub sub.path with
    | some ds =>
      (describeSubdataset engine options sub).width = ds.xSize ∧
        (describeSubdataset engine options sub).height = ds.ySize ∧
        (describeSubdataset engine options sub).dimensions =
          if ds.xSize > 1 ∧ ds.ySize > 1 then 2 else 1
    | none =>
      (describeSubdataset engine options sub).width = sub.width ∧
        (describeSubdataset engine options sub).height = sub.height ∧
        (describeSubdataset engine options sub).dimensions = sub.dimensions := by
  unfold describeSubdataset
  obtain ⟨-, -, -, h4, h5, h6⟩ := classifyAndName_keeps (readGeometry engine options sub)
  have hg := readGeometry_geometry engine options sub
  cases hopen : engine.openSub sub.path with
  | none =>
    rw [hopen] at hg
    simp only at hg ⊢
    rw [h4, h5, h6, hg]
    exact ⟨rfl, rfl, rfl⟩
  | some ds =>
    rw [hopen] at hg
    simp only at hg ⊢
    rw [h4, h5, h6]
    exact hg

/-! ## Descriptor catalog builder: the catalog -/

theorem listSubdatasets_table (engine : RasterEngine) (inputPath : String)
    (options : ConversionOptions) (metadata : List String)
    (hc : engine.container inputPath = some (some metadata)) (hne : metadata ≠ []) :
    listSubdatasets engine inputPath options =
      if ∀ e ∈ tableEntries metadata, e.num ≤ 2147483647 then
        Except.ok (catalogOf engine options metadata)
      else Except.error ConvertError.ordinalOutOfRange := by
  have hlen : ¬ metadata.length = 0 := fun h => hne (List.length_eq_zero.mp h)
  unfold listSubdatasets
  by_cases hr : ∀ e ∈ tableEntries metadata, e.num ≤ 2147483647
  · simp only [hc, hlen, if_false, readItems_eq, if_pos hr]
    rfl
  · simp only [hc, hlen, if_false, readItems_eq, if_neg hr]

theorem listSubdatasets_ok_inv (engine : RasterEngine) (inputPath : String)
    (options : ConversionOptions) (catalog : List SubdatasetInfo)
    (h : listSubdatasets engine inputPath options = Except.ok catalog) :
    ∃ metadata, engine.container inputPath = some (some metadata) ∧ metadata ≠ [] ∧
      (∀ e ∈ tableEntries metadata, e.num ≤ 2147483647) ∧
      catalog = catalogOf engine options metadata := by
  cases hc : engine.container inputPath with
  | none =>
    unfold listSubdatasets at h
    simp [hc] at h
  | some table =>
    cases table with
    | none =>
      unfold listSubdatasets at h
      simp [hc] at h
    | some metadata =>
      by_cases hne : metadata = []
      · unfold listSubdatasets at h
        simp [hc, hne] at h
      · rw [listSubdatasets_table engine inputPath options metadata hc hne] at h
        by_cases hr : ∀ e ∈ tableEntries metadata, e.num ≤ 2147483647
        · rw [if_pos hr] at h
          cases h
          exact ⟨metadata, rfl, hne, hr, rfl⟩
        · rw [if_neg hr] at h
          cases h

theorem catalogOf_mem (engine : RasterEngine) (options : ConversionOptions)
    (metadata : List String) (d : SubdatasetInfo) (hd : d ∈ catalogOf engine options metadata) :
    ∃ n, (∃ e ∈ tableEntries metadata, e.num = n) ∧
      d = describeSubdataset engine options (provisional (tableEntries metadata) n) := by
  unfold catalogOf at hd
  obtain ⟨v, hv, hdv⟩ := List.mem_map.mp hd
  rw [List.mem_insertionSort] at hv
  obtain ⟨kv, hkv, hkv2⟩ := List.mem_map.mp hv
  obtain ⟨-, hkeys, hval⟩ := foldl_applyEntry_inv (tableEntries metadata)
  refine ⟨kv.1, (hkeys kv.1).mp (List.mem_map_of_mem Prod.fst hkv), ?_⟩
  rw [← hdv, ← hkv2, hval kv hkv]

/-- C8, as stated, fails: a sub-resource that cannot be opened keeps the dimensionality 0
of the value-initialised descriptor, which is neither 1 nor 2. -/
theorem unopened_subresource_has_dimensions_zero :
    listSubdatasets
        { container := fun _ => some (some ["SUBDATASET_1_NAME=HDF5:\"scene.h5\"://Latitude"])
          openSub := fun _ => none }
        "scene.h5" {} =
      Except.ok
        [{ name := "Latitude", path := "HDF5:\"scene.h5\"://Latitude",
           type := DatasetType.GEOLOCATION, width := 0, height := 0, dimensions := 0 }] := by
  rfl

/-- C8, amended. For every descriptor returned by `listSubdatasets`: when its
sub-resource opens, width and height are the raster sizes and `dimensions` is 2 if
width > 1 and height > 1 and is 1 otherwise; when its sub-resource cannot be opened,
width, height and `dimensions` keep the value 0 of the value-initialised descriptor. So
`dimensions` is always 0, 1 or 2. -/
theorem catalog_dimensions (engine : RasterEngine) (inputPath : String)
    (options : ConversionOptions) (catalog : List SubdatasetInfo)
    (h : listSubdatasets engine inputPath options = Except.ok catalog) :
    ∀ d ∈ catalog,
      (match engine.openSub d.path with
        | some ds =>
          d.width = ds.xSize ∧ d.height = ds.ySize ∧
            d.dimensions = if d.width > 1 ∧ d.height > 1 then 2 else 1
        | none => d.width = 0 ∧ d.height = 0 ∧ d.dimensions = 0) ∧
      (d.dimensions = 0 ∨ d.dimensions = 1 ∨ d.dimensions = 2) := by
  intro d hd
  obtain ⟨metadata, -, -, -, hcat⟩ := listSubdatasets_ok_inv engine inputPath options catalog h
  rw [hcat] at hd
  obtain ⟨n, -, hdn⟩ := catalogOf_mem engine options metadata d hd
  have hgeo := describeSubdataset_geometry engine options (provisional (tableEntries metadata) n)
  have hpath := (describeSubdataset_keeps engine options
    (provisional (tableEntries metadata) n)).2.1
  rw [← hdn] at hgeo hpath
  rw [← hpath] at hgeo
  cases hopen : engine.openSub d.path with
  | none =>
    rw [hopen] at hgeo
    simp only at hgeo ⊢
    obtain ⟨h1, h2, h3⟩ := hgeo
    have h4 : d.dimensions = 0 := h3
    exact ⟨⟨h1, h2, h4⟩, Or.inl h4⟩
  | some ds =>
    rw [hopen] at hgeo
    simp only at hgeo ⊢
    obtain ⟨h1, h2, h3⟩ := hgeo
    refine ⟨⟨h1, h2, by rw [h1, h2]; exact h3⟩, ?_⟩
    rw [h3]
    split
    · exact Or.inr (Or.inr rfl)
    · exact Or.inr (Or.inl rfl)

theorem catalog_dimensions_witness :
    listSubdatasets demoEngine "scene.h5" {} = Except.ok demoCatalog ∧
    (match demoEngine.openSub demoTime.path with
      | some ds =>
        demoTime.width = ds.xSize ∧ demoTime.height = ds.ySize ∧
          demoTime.dimensions = if demoTime.width > 1 ∧ demoTime.height > 1 then 2 else 1
      | none => demoTime.width = 0 ∧ demoTime.height = 0 ∧ demoTime.dimensions = 0) ∧
    (demoTime.dimensions = 0 ∨ demoTime.dimensions = 1 ∨ demoTime.dimensions = 2) :=
  ⟨by rfl,
    catalog_dimensions demoEngine "scene.h5" {} demoCatalog (by rfl) demoTime (by decide)⟩

/-- C9, as stated, fails: a table that holds only another entry yields no provisional
descriptor, and `listSubdatasets` returns the empty catalog instead of failing. -/
theorem unmatched_table_gives_empty_catalog :
    tableEntries ["AREA_OR_POINT=Area"] = [] ∧
    listSubdatasets
        { container := fun _ => some (some ["AREA_OR_POINT=Area"])
          openSub := fun _ => none }
        "scene.h5" {} = Except.ok [] :=
  ⟨by decide, by rfl⟩

/-- C9, amended. For every openable container, `listSubdatasets` fails with the
no-subdatasets error exactly when the metadata table is absent or empty; when the table
is not empty but no key matches `SUBDATASET_<ordinal>_NAME` or `SUBDATASET_<ordinal>_DESC`
it returns the empty catalog. -/
theorem no_subdatasets_error_on_empty_table (engine : RasterEngine) (inputPath : String)
    (options : ConversionOptions) :
    (listSubdatasets engine inputPath options = Except.error ConvertError.noSubdatasets ↔
      (engine.container inputPath = some none ∨ engine.container inputPath = some (some []))) ∧
    (∀ metadata, engine.container inputPath = some (some metadata) → metadata ≠ [] →
      tableEntries metadata = [] → listSubdatasets engine inputPath options = Except.ok []) := by
  refine ⟨⟨?_, ?_⟩, ?_⟩
  · intro h
    cases hc : engine.container inputPath with
    | none =>
      unfold listSubdatasets at h
      simp [hc] at h
    | some table =>
      cases table with
      | none => exact Or.inl rfl
      | some metadata =>
        by_cases hne : metadata = []
        · rw [hne]
          exact Or.inr rfl
        · rw [listSubdatasets_table engine inputPath options metadata hc hne] at h
          split at h <;> cases h
  · rintro (hc | hc)
    · unfold listSubdatasets
      simp [hc]
    · unfold listSubdatasets
      simp [hc]
  · intro metadata hc hne hnone
    rw [listSubdatasets_table engine inputPath options metadata hc hne]
    simp [hnone, catalogOf]

theorem no_subdatasets_error_on_empty_table_witness :
    listSubdatasets { container := fun _ => some (some []), openSub := fun _ => none }
        "scene.h5" {} = Except.error ConvertError.noSubdatasets ∧
    listSubdatasets
        { container := fun _ => some (some ["AREA_OR_POINT=Area"]), openSub := fun _ => none }
        "scene.h5" {} = Except.ok [] :=
  ⟨(no_subdatasets_error_on_empty_table
      { container := fun _ => some (some []), openSub := fun _ => none } "scene.h5" {}).1.mpr
      (Or.inr rfl),
    (no_subdatasets_error_on_empty_table
      { container := fun _ => some (some ["AREA_OR_POINT=Area"]), openSub := fun _ => none }
      "scene.h5" {}).2 ["AREA_OR_POINT=Area"] rfl (by decide) (by decide)⟩

/-- C10. For every metadata table, the catalog returned by `listSubdatasets` holds exactly
one descriptor per distinct ordinal of a matching key: it is a rearrangement of the
descriptors built for the distinct ordinals, the descriptor of an ordinal having its
source reference and display name from the last `_NAME` value and its description from
the last `_DESC` value of that ordinal; and the descriptors are in non-decreasing
lexicographic order of display name, whatever their ordinals. A catalog is returned when
the table is not empty and every ordinal fits an `int`. -/
theorem catalog_one_per_ordinal_sorted (engine : RasterEngine) (inputPath : String)
    (options : ConversionOptions) (metadata : List String)
    (hc : engine.container inputPath = some (some metadata)) :
    (metadata ≠ [] → (∀ e ∈ tableEntries metadata, e.num ≤ 2147483647) →
      ∃ catalog, listSubdatasets engine inputPath options = Except.ok catalog) ∧
    ∀ catalog, listSubdatasets engine inputPath options = Except.ok catalog →
      (∃ ords : List Nat, ords.Nodup ∧
        (∀ n, n ∈ ords ↔ ∃ e ∈ tableEntries metadata, e.num = n) ∧
        catalog.Perm (ords.map fun n =>
          describeSubdataset engine options (provisional (tableEntries metadata) n)) ∧
        ∀ n,
          (describeSubdataset engine options (provisional (tableEntries metadata) n)).path =
              (lastValue (tableEntries metadata) true n).getD "" ∧
            (describeSubdataset engine options (provisional (tableEntries metadata) n)).name =
              ((lastValue (tableEntries metadata) true n).map extractSubdatasetName).getD "" ∧
            (describeSubdataset engine options
                (provisional (tableEntries metadata) n)).description =
              (lastValue (tableEntries metadata) false n).getD "") ∧
      catalog.Pairwise (fun a b => strLess b.name.data a.name.data = false) := by
  refine ⟨?_, ?_⟩
  · intro hne hr
    rw [listSubdatasets_table engine inputPath options metadata hc hne, if_pos hr]
    exact ⟨_, rfl⟩
  · intro catalog h
    obtain ⟨metadata2, hc2, -, -, hcat⟩ :=
      listSubdatasets_ok_inv engine inputPath options catalog h
    rw [hc] at hc2
    cases hc2
    obtain ⟨hnd, hkeys, hval⟩ := foldl_applyEntry_inv (tableEntries metadata)
    refine ⟨⟨((tableEntries metadata).foldl applyEntry []).map Prod.fst, hnd, hkeys, ?_, ?_⟩, ?_⟩
    · rw [hcat]
      unfold catalogOf
      refine (List.Perm.map _ (List.perm_insertionSort _ _)).trans ?_
      rw [List.map_map, List.map_map]
      apply List.Perm.of_eq
      apply List.map_congr_left
      intro kv hkv
      simp only [Function.comp_apply]
      rw [hval kv hkv]
    · intro n
      obtain ⟨h1, h2, h3⟩ :=
        describeSubdataset_keeps engine options (provisional (tableEntries metadata) n)
      rw [h1, h2, h3]
      exact ⟨rfl, rfl, rfl⟩
    · rw [hcat]
      unfold catalogOf
      rw [List.pairwise_map]
      have hs := sorted_by_name
        (((tableEntries metadata).foldl applyEntry []).map fun kv => kv.2)
      refine List.Pairwise.imp ?_ hs
      intro a b hab
      rw [(describeSubdataset_keeps engine options a).1,
        (describeSubdataset_keeps engine options b).1]
      exact hab

theorem catalog_one_per_ordinal_sorted_witness :
    listSubdatasets demoEngine "scene.h5" {} = Except.ok demoCatalog ∧
    ((demoTable ≠ [] → (∀ e ∈ tableEntries demoTable, e.num ≤ 2147483647) →
      ∃ catalog, listSubdatasets demoEngine "scene.h5" {} = Except.ok catalog) ∧
    ∀ catalog, listSubdatasets demoEngine "scene.h5" {} = Except.ok catalog →
      (∃ ords : List Nat, ords.Nodup ∧
        (∀ n, n ∈ ords ↔ ∃ e ∈ tableEntries demoTable, e.num = n) ∧
        catalog.Perm (ords.map fun n =>
          describeSubdataset demoEngine {} (provisional (tableEntries demoTable) n)) ∧
        ∀ n,
          (describeSubdataset demoEngine {} (provisional (tableEntries demoTable) n)).path =
              (lastValue (tableEntries demoTable) true n).getD "" ∧
            (describeSubdataset demoEngine {} (provisional (tableEntries demoTable) n)).name =
              ((lastValue (tableEntries demoTable) true n).map extractSubdatasetName).getD "" ∧
            (describeSubdataset demoEngine {}
                (provisional (tableEntries demoTable) n)).description =
              (lastValue (tableEntries demoTable) false n).getD "") ∧
      catalog.Pairwise (fun a b => strLess b.name.data a.name.data = false)) :=
  ⟨by rfl, catalog_one_per_ordinal_sorted demoEngine "scene.h5" {} demoTable rfl⟩

/-! ## Band information -/

theorem findFrom_char (c : Char) :
    ∀ (s : List Char) (i : Nat),
      findFrom s [c] i =
        if c ∈ s then some (i + (s.takeWhile fun x => x != c).length) else none := by
  intro s
  induction s with
  | nil => intro i; simp [findFrom, List.isPrefixOf]
  | cons x t ih =>
    intro i
    by_cases hx : x = c
    · subst hx
      simp [findFrom, List.isPrefixOf, List.takeWhile_cons]
    · have hcx : ¬ c = x := fun h => hx h.symm
      simp only [findFrom, List.isPrefixOf, ih, List.mem_cons, hcx, false_or,
        List.takeWhile_cons]
      have e1 : (c == x) = false := by simp [hcx]
      have e2 : (x != c) = true := by simp [hx]
      simp only [e1, e2, Bool.false_and, Bool.false_eq_true, if_false, if_true,
        List.length_cons]
      split
      · congr 1
        omega
      · rfl

theorem take_length_takeWhile (p : Char → Bool) (l : List Char) :
    l.take (l.takeWhile p).length = l.takeWhile p := by
  have h := List.take_left (l.takeWhile p) (l.dropWhile p)
  rw [List.takeWhile_append_dropWhile] at h
  exact h

theorem drop_length_takeWhile (p : Char → Bool) (l : List Char) :
    l.drop (l.takeWhile p).length = l.dropWhile p := by
  have h := List.drop_left (l.takeWhile p) (l.dropWhile p)
  rw [List.takeWhile_append_dropWhile] at h
  exact h

theorem dropWhile_eq_nil_of_not_mem (c : Char) (l : List Char) (h : c ∉ l) :
    (l.dropWhile fun x => x != c) = [] ∧ (l.takeWhile fun x => x != c) = l := by
  induction l with
  | nil => exact ⟨rfl, rfl⟩
  | cons x t ih =>
    have hx : ¬ x = c := fun hxc => h (by simp [hxc])
    have ht : c ∉ t := fun hct => h (List.mem_cons_of_mem _ hct)
    have e : (x != c) = true := by simp [hx]
    simp only [List.dropWhile_cons, List.takeWhile_cons, e, if_true, (ih ht).1, (ih ht).2,
      and_self]

/-- What `extractBandInfo` does to any descriptor. -/
theorem extractBandInfo_eq (sub : SubdatasetInfo) :
    extractBandInfo sub =
      if ("IMG_" : String).data <+: sub.name.data then
        { sub with
          bandName := bandNameOf sub.name
          bandType := if '_' ∈ sub.name.data.drop 4 then bandTypeOf sub.name else sub.bandType }
      else sub := by
  unfold extractBandInfo
  by_cases hp : ("IMG_" : String).data <+: sub.name.data
  · have hb : (("IMG_" : String).data.isPrefixOf sub.name.data) = true :=
      List.isPrefixOf_iff_prefix.mpr hp
    simp only [hb, Bool.not_true, Bool.false_eq_true, if_false, if_pos hp, findFrom_char]
    by_cases hu : '_' ∈ sub.name.data.drop 4
    · simp only [if_pos hu]
      have e1 : substrLen sub.name 4
          (4 + ((sub.name.data.drop 4).takeWhile fun x => x != '_').length - 4) =
          bandNameOf sub.name := by
        unfold substrLen bandNameOf
        rw [Nat.add_sub_cancel_left, take_length_takeWhile]
      have e2 : substr sub.name
          (4 + ((sub.name.data.drop 4).takeWhile fun x => x != '_').length + 1) =
          bandTypeOf sub.name := by
        unfold substr bandTypeOf
        rw [← drop_length_takeWhile, List.drop_drop, List.drop_drop]
        congr 2
      rw [e1, e2]
    · simp only [if_neg hu]
      have e1 : substr sub.name 4 = bandNameOf sub.name := by
        unfold substr bandNameOf
        rw [(dropWhile_eq_nil_of_not_mem '_' _ hu).2]
      rw [e1]
  · have hb : (("IMG_" : String).data.isPrefixOf sub.name.data) = false := by
      cases h : ("IMG_" : String).data.isPrefixOf sub.name.data with
      | false => rfl
      | true => exact absurd (List.isPrefixOf_iff_prefix.mp h) hp
    simp only [hb, Bool.not_false, if_true, if_neg hp]

theorem readGeometry_band (engine : RasterEngine) (options : ConversionOptions)
    (sub : SubdatasetInfo) :
    (readGeometry engine options sub).bandName = sub.bandName ∧
      (readGeometry engine options sub).bandType = sub.bandType := by
  unfold readGeometry
  cases engine.openSub sub.path with
  | none => exact ⟨rfl, rfl⟩
  | some ds =>
    dsimp only
    split <;> exact ⟨rfl, rfl⟩

theorem extractBandInfo_type (sub : SubdatasetInfo) :
    (extractBandInfo sub).type = sub.type := by
  rw [extractBandInfo_eq]
  split <;> rfl

/-- An image band of the catalog went through `extractBandInfo` with empty band fields. -/
theorem image_band_of_catalog (engine : RasterEngine) (inputPath : String)
    (options : ConversionOptions) (catalog : List SubdatasetInfo)
    (h : listSubdatasets engine inputPath options = Except.ok catalog)
    (d : SubdatasetInfo) (hd : d ∈ catalog) (hty : d.type = DatasetType.IMAGE_BAND) :
    ∃ sub, sub.bandName = "" ∧ sub.bandType = "" ∧ sub.name = d.name ∧
      d = extractBandInfo sub := by
  obtain ⟨metadata, -, -, -, hcat⟩ := listSubdatasets_ok_inv engine inputPath options catalog h
  rw [hcat] at hd
  obtain ⟨n, -, hdn⟩ := catalogOf_mem engine options metadata d hd
  obtain ⟨hb1, hb2⟩ := readGeometry_band engine options (provisional (tableEntries metadata) n)
  have hdef : d = classifyAndName
      (readGeometry engine options (provisional (tableEntries metadata) n)) := hdn
  unfold classifyAndName at hdef
  dsimp only at hdef
  split at hdef
  · refine ⟨_, ?_, ?_, ?_, hdef⟩
    · exact hb1
    · exact hb2
    · rw [hdef]
      exact (extractBandInfo_keeps _).1.symm
  · rename_i hno
    rw [hdef] at hty
    exact absurd hty hno

/-- C11. For every descriptor of a catalog classified ImageBand whose name begins with
`IMG_`, `extractBandInfo` has set `bandName` to the part of the name after `IMG_` up to,
not including, the first following underscore and `bandType` to everything after that
underscore; when there is no such underscore `bandName` is the whole remainder and
`bandType` is empty. For an ImageBand descriptor whose name does not begin with the
upper-case `IMG_` both fields are empty. The first part states what `extractBandInfo`
does to any descriptor: only the two band fields change. -/
theorem extractBandInfo_splits_name :
    (∀ sub : SubdatasetInfo,
      extractBandInfo sub =
        if ("IMG_" : String).data <+: sub.name.data then
          { sub with
            bandName := bandNameOf sub.name
            bandType :=
              if '_' ∈ sub.name.data.drop 4 then bandTypeOf sub.name else sub.bandType }
        else sub) ∧
    (∀ (engine : RasterEngine) (inputPath : String) (options : ConversionOptions)
        (catalog : List SubdatasetInfo),
      listSubdatasets engine inputPath options = Except.ok catalog →
      ∀ d ∈ catalog, d.type = DatasetType.IMAGE_BAND →
        (("IMG_" : String).data <+: d.name.data →
          d.bandName = bandNameOf d.name ∧ d.bandType = bandTypeOf d.name ∧
            ('_' ∉ d.name.data.drop 4 →
              d.bandName = ⟨d.name.data.drop 4⟩ ∧ d.bandType = "")) ∧
        (¬ ("IMG_" : String).data <+: d.name.data → d.bandName = "" ∧ d.bandType = "")) := by
  refine ⟨extractBandInfo_eq, ?_⟩
  intro engine inputPath options catalog h d hd hty
  obtain ⟨sub, hb1, hb2, hname, hdef⟩ :=
    image_band_of_catalog engine inputPath options catalog h d hd hty
  rw [extractBandInfo_eq, hname] at hdef
  refine ⟨?_, ?_⟩
  · intro hp
    rw [if_pos hp] at hdef
    have hbn : d.bandName = bandNameOf d.name := by rw [hdef]
    have hbt : d.bandType =
        if '_' ∈ d.name.data.drop 4 then bandTypeOf d.name else sub.bandType := by
      rw [hdef]
    by_cases hu : '_' ∈ d.name.data.drop 4
    · rw [if_pos hu] at hbt
      exact ⟨hbn, hbt, fun hno => absurd hu hno⟩
    · rw [if_neg hu, hb2] at hbt
      obtain ⟨e1, e2⟩ := dropWhile_eq_nil_of_not_mem '_' _ hu
      have hbt2 : bandTypeOf d.name = "" := by
        unfold bandTypeOf
        rw [e1]
        rfl
      have hbn2 : bandNameOf d.name = ⟨d.name.data.drop 4⟩ := by
        unfold bandNameOf
        rw [e2]
      exact ⟨hbn, by rw [hbt, hbt2], fun _ => ⟨by rw [hbn, hbn2], hbt⟩⟩
  · intro hp
    rw [if_neg hp] at hdef
    rw [hdef]
    exact ⟨hb1, hb2⟩

theorem extractBandInfo_splits_name_witness :
    bandFields (listSubdatasets bandEngine "scene.h5" {}) =
      some [("IMG_TIR1_RADIANCE_DN", DatasetType.IMAGE_BAND, "TIR1", "RADIANCE_DN"),
            ("IMG_VIS", DatasetType.IMAGE_BAND, "VIS", ""),
            ("img_swir", DatasetType.IMAGE_BAND, "", "")] ∧
    ((("IMG_" : String).data <+: demoImage.name.data →
        demoImage.bandName = bandNameOf demoImage.name ∧
          demoImage.bandType = bandTypeOf demoImage.name ∧
          ('_' ∉ demoImage.name.data.drop 4 →
            demoImage.bandName = ⟨demoImage.name.data.drop 4⟩ ∧ demoImage.bandType = "")) ∧
      (¬ ("IMG_" : String).data <+: demoImage.name.data →
        demoImage.bandName = "" ∧ demoImage.bandType = "")) :=
  ⟨by decide,
    extractBandInfo_splits_name.2 demoEngine "scene.h5" {} demoCatalog (by rfl) demoImage
      (by decide) (by decide)⟩

/-! ## Empty selection and file names -/

theorem sanitize_char (c : Char) :
    (if (!isalnum c && c != '_' && c != '-') = true then '_' else c) =
      if inSafeSet c then c else '_' := by
  have hA : Char.toNat 'A' = 65 := by decide
  have hZ : Char.toNat 'Z' = 90 := by decide
  have ha : Char.toNat 'a' = 97 := by decide
  have hz : Char.toNat 'z' = 122 := by decide
  have h0 : Char.toNat '0' = 48 := by decide
  have h9 : Char.toNat '9' = 57 := by decide
  by_cases hs : inSafeSet c
  · rw [if_pos hs]
    unfold inSafeSet at hs
    rw [hA, hZ, ha, hz, h0, h9] at hs
    rcases hs with h | h | h | h | h
    · simp [isalnum, h.1, h.2]
    · simp [isalnum, h.1, h.2]
    · simp [isalnum, h.1, h.2]
    · simp [h]
    · simp [h]
  · rw [if_neg hs]
    unfold inSafeSet at hs
    rw [hA, hZ, ha, hz, h0, h9] at hs
    simp only [not_or, not_and, not_le] at hs
    obtain ⟨h1, h2, h3, h4, h5⟩ := hs
    have e : isalnum c = false := by
      unfold isalnum
      simp only [Bool.or_eq_false_iff, Bool.and_eq_false_imp, decide_eq_true_eq,
        decide_eq_false_iff_not, not_le]
      exact ⟨⟨h3, h1⟩, h2⟩
    simp [e, h4, h5]

theorem sanitizeFilename_map (name : String) :
    (sanitizeFilename name).data =
      name.data.map fun c => if inSafeSet c then c else '_' := by
  unfold sanitizeFilename
  simp only
  apply List.map_congr_left
  intro c _
  exact sanitize_char c

theorem sanitizeFilename_safe (name : String) :
    ∀ c ∈ (sanitizeFilename name).data, inSafeSet c := by
  intro c hc
  rw [sanitizeFilename_map] at hc
  obtain ⟨x, -, hx⟩ := List.mem_map.mp hc
  rw [← hx]
  split
  · assumption
  · exact Or.inr (Or.inr (Or.inr (Or.inl rfl)))

/-- C13. For every name, `sanitizeFilename` returns a string of the same length in which
each character that is a letter, a digit, `_` or `-` is kept at its position and every
other character is replaced by `_`; hence every character of the result lies in
`[A-Za-z0-9_-]`. -/
theorem sanitizeFilename_keeps_safe_characters (name : String) :
    (sanitizeFilename name).data.length = name.data.length ∧
      (∀ i : Nat, (sanitizeFilename name).data[i]? =
        (name.data[i]?).map fun c => if inSafeSet c then c else '_') ∧
      ∀ c ∈ (sanitizeFilename name).data, inSafeSet c := by
  refine ⟨?_, ?_, sanitizeFilename_safe name⟩
  · rw [sanitizeFilename_map]
    simp
  · intro i
    rw [sanitizeFilename_map]
    simp

/-- C12. For every catalog, when all six category inclusion flags are false the filtered
task list is empty and `convert` returns without any effect on the file system: the
file system is the one the run started on (no output directory, no output file, no
manifest file), no manifest is assembled, and no directory creation or pathway call is
recorded. -/
theorem nothing_selected_nothing_written (w : RunWorld) (fs : FileSystem) (inputPath : String)
    (options : ConversionOptions) (catalog : List SubdatasetInfo)
    (hlist : listSubdatasets w.engine inputPath options = Except.ok catalog)
    (h1 : options.convertImageBands = false) (h2 : options.convertGeolocation = false)
    (h3 : options.convertQualityFlags = false) (h4 : options.convertTimeData = false)
    (h5 : options.convertAuxiliary = false) (h6 : options.convertUnknown = false) :
    filterSubdatasets catalog options = [] ∧
      ∃ out, convert w fs inputPath options = Except.ok out ∧ out.fs = fs ∧
        out.manifest = none ∧ out.events = [] := by
  have hnil : filterSubdatasets catalog options = [] := by
    rw [filterSubdatasets_eq_filter, List.filter_eq_nil_iff]
    intro d _
    cases hty : d.type <;> simp [inclusionFlag, h1, h2, h3, h4, h5, h6]
  refine ⟨hnil, ?_⟩
  unfold convert
  simp only [hlist, hnil, List.isEmpty_nil, if_true]
  split
  · exact ⟨_, rfl, rfl, rfl, rfl⟩
  · exact ⟨_, rfl, rfl, rfl, rfl⟩

theorem nothing_selected_nothing_written_witness :
    listSubdatasets demoWorld.engine "scene.h5" nothingSelected = Except.ok demoCatalog ∧
    filterSubdatasets demoCatalog nothingSelected = [] ∧
      ∃ out, convert demoWorld demoFs "scene.h5" nothingSelected = Except.ok out ∧
        out.fs = demoFs ∧ out.manifest = none ∧ out.events = [] :=
  ⟨by rfl,
    nothing_selected_nothing_written demoWorld demoFs "scene.h5" nothingSelected demoCatalog
      (by rfl) rfl rfl rfl rfl rfl rfl⟩

/-! ## Output path planner: which descriptors share a path -/

theorem below_data (a b : String) : (below a b).data = a.data ++ sepOf a ++ b.data := by
  unfold below sepOf
  split <;> simp [String.data_append]

theorem split_at_first (c : Char) :
    ∀ (a1 a2 r1 r2 : List Char), c ∉ a1 → c ∉ a2 → a1 ++ c :: r1 = a2 ++ c :: r2 →
      a1 = a2 ∧ r1 = r2 := by
  intro a1
  induction a1 with
  | nil =>
    intro a2 r1 r2 _ h2 h
    cases a2 with
    | nil =>
      simp only [List.nil_append, List.cons.injEq, true_and] at h
      exact ⟨rfl, h⟩
    | cons y ys =>
      simp only [List.nil_append, List.cons_append, List.cons.injEq] at h
      exact absurd (by rw [h.1]; exact List.mem_cons_self _ _) h2
  | cons x xs ih =>
    intro a2 r1 r2 h1 h2 h
    cases a2 with
    | nil =>
      simp only [List.nil_append, List.cons_append, List.cons.injEq] at h
      exact absurd (by rw [← h.1]; exact List.mem_cons_self _ _) h1
    | cons y ys =>
      simp only [List.cons_append, List.cons.injEq] at h
      obtain ⟨e1, e2⟩ := ih ys r1 r2 (fun hm => h1 (List.mem_cons_of_mem _ hm))
        (fun hm => h2 (List.mem_cons_of_mem _ hm)) h.2
      exact ⟨by rw [h.1, e1], e2⟩

theorem folder_facts (g : Bool) (t : DatasetType) (folder : String)
    (h : classificationFolder g t = some folder) :
    folder.data ≠ [] ∧ folder.data.getLast? ≠ some '/' ∧ '/' ∉ folder.data := by
  cases g <;> cases t <;> simp [classificationFolder] at h <;> subst h <;> decide

theorem plannedExtension_data (sub : SubdatasetInfo) :
    ∃ rest, (plannedExtension sub).data = '.' :: rest ∧ '/' ∉ rest := by
  unfold plannedExtension
  split
  · exact ⟨['j', 's', 'o', 'n'], rfl, by decide⟩
  · exact ⟨['t', 'i', 'f'], rfl, by decide⟩

theorem sanitizeFilename_no_sep (name : String) :
    '/' ∉ (sanitizeFilename name).data ∧ '.' ∉ (sanitizeFilename name).data := by
  refine ⟨fun h => ?_, fun h => ?_⟩
  · exact absurd (sanitizeFilename_safe name _ h) (by decide)
  · exact absurd (sanitizeFilename_safe name _ h) (by decide)

theorem plannedLayout_data (inputPath : String) (sub : SubdatasetInfo)
    (options : ConversionOptions) :
    (plannedLayout inputPath sub options).data =
      (below options.outputDirectory (pathStem inputPath)).data ++
        sepOf (below options.outputDirectory (pathStem inputPath)) ++
        layoutTail sub options := by
  unfold plannedLayout layoutTail
  simp only
  cases hf : classificationFolder options.groupByBand sub.type with
  | none =>
    simp only
    rw [below_data, String.data_append]
    rfl
  | some folder =>
    obtain ⟨h1, h2, -⟩ := folder_facts _ _ folder hf
    simp only
    rw [below_data, below_data, String.data_append]
    have hsep : sepOf (below (below options.outputDirectory (pathStem inputPath)) folder) =
        ['/'] := by
      unfold sepOf
      rw [below_data]
      have hne : (below options.outputDirectory (pathStem inputPath)).data ++
          sepOf (below options.outputDirectory (pathStem inputPath)) ++ folder.data ≠ [] := by
        simp [h1]
      have hlast : ((below options.outputDirectory (pathStem inputPath)).data ++
          sepOf (below options.outputDirectory (pathStem inputPath)) ++
          folder.data).getLast? ≠ some '/' := by
        rw [List.getLast?_append_of_ne_nil _ h1]
        exact h2
      rw [if_neg (not_or.mpr ⟨hne, hlast⟩)]
    rw [hsep]
    unfold plannedExtension
    simp [List.append_assoc]

theorem file_name_inj (a b : SubdatasetInfo)
    (h : (sanitizeFilename a.name).data ++ (plannedExtension a).data =
      (sanitizeFilename b.name).data ++ (plannedExtension b).data) :
    sanitizeFilename a.name = sanitizeFilename b.name ∧
      plannedExtension a = plannedExtension b := by
  obtain ⟨ra, hra, -⟩ := plannedExtension_data a
  obtain ⟨rb, hrb, -⟩ := plannedExtension_data b
  rw [hra, hrb] at h
  obtain ⟨e1, e2⟩ := split_at_first '.' _ _ _ _ (sanitizeFilename_no_sep a.name).2
    (sanitizeFilename_no_sep b.name).2 h
  refine ⟨String.ext e1, String.ext ?_⟩
  rw [hra, hrb, e2]

theorem file_name_no_sep (a : SubdatasetInfo) :
    '/' ∉ (sanitizeFilename a.name).data ++ (plannedExtension a).data := by
  obtain ⟨ra, hra, hno⟩ := plannedExtension_data a
  rw [hra]
  intro h
  rcases List.mem_append.mp h with h | h
  · exact (sanitizeFilename_no_sep a.name).1 h
  · rcases List.mem_cons.mp h with h | h
    · exact absurd h (by decide)
    · exact hno h

theorem layoutTail_inj (a b : SubdatasetInfo) (options : ConversionOptions)
    (h : layoutTail a options = layoutTail b options) :
    classificationFolder options.groupByBand a.type =
        classificationFolder options.groupByBand b.type ∧
      sanitizeFilename a.name = sanitizeFilename b.name ∧
      plannedExtension a = plannedExtension b := by
  unfold layoutTail at h
  cases hfa : classificationFolder options.groupByBand a.type with
  | none =>
    cases hfb : classificationFolder options.groupByBand b.type with
    | none =>
      rw [hfa, hfb] at h
      exact ⟨rfl, file_name_inj a b h⟩
    | some fb =>
      rw [hfa, hfb] at h
      simp only at h
      exfalso
      apply file_name_no_sep a
      rw [h]
      simp
  | some fa =>
    cases hfb : classificationFolder options.groupByBand b.type with
    | none =>
      rw [hfa, hfb] at h
      simp only at h
      exfalso
      apply file_name_no_sep b
      rw [← h]
      simp
    | some fb =>
      rw [hfa, hfb] at h
      simp only at h
      obtain ⟨e1, e2⟩ := split_at_first '/' _ _ _ _ (folder_facts _ _ fa hfa).2.2
        (folder_facts _ _ fb hfb).2.2 h
      exact ⟨by rw [String.ext e1], file_name_inj a b e2⟩

/-- C14, as stated, fails: the two sub-resources of the sample container have different
source references and are planned to the same output path; so are two 2-D descriptors
whose names differ in a character outside `[A-Za-z0-9_-]` only. -/
theorem different_sources_share_output_path :
    plannedPaths "scene.h5" {} (listSubdatasets clashWorld.engine "scene.h5" {}) =
      some [("HDF5:\"scene.h5\"://north/Temperature", "output/scene/Temperature.json"),
            ("HDF5:\"scene.h5\"://south/Temperature", "output/scene/Temperature.json")] ∧
    generateOutputPath "scene.h5"
        { name := "Band.1", path := "HDF5:\"scene.h5\"://Band.1", dimensions := 2 } {} =
      generateOutputPath "scene.h5"
        { name := "Band_1", path := "HDF5:\"scene.h5\"://Band_1", dimensions := 2 } {} := by
  refine ⟨by decide, by decide⟩

/-- C14, amended. For a fixed container path and options, two descriptors are planned to
the same output path exactly when they have the same classification folder (or both
none), the same sanitized display name and the same extension. So two sub-resources
whose sanitized display names differ never share an output path, whatever their source
references are. -/
theorem same_output_path_iff (inputPath : String) (options : ConversionOptions)
    (a b : SubdatasetInfo) :
    (generateOutputPath inputPath a options = generateOutputPath inputPath b options ↔
      classificationFolder options.groupByBand a.type =
          classificationFolder options.groupByBand b.type ∧
        sanitizeFilename a.name = sanitizeFilename b.name ∧
        plannedExtension a = plannedExtension b) ∧
    (sanitizeFilename a.name ≠ sanitizeFilename b.name →
      generateOutputPath inputPath a options ≠ generateOutputPath inputPath b options) := by
  have key : generateOutputPath inputPath a options = generateOutputPath inputPath b options ↔
      classificationFolder options.groupByBand a.type =
          classificationFolder options.groupByBand b.type ∧
        sanitizeFilename a.name = sanitizeFilename b.name ∧
        plannedExtension a = plannedExtension b := by
    rw [generateOutputPath_eq_plannedLayout, generateOutputPath_eq_plannedLayout]
    constructor
    · intro h
      have hd := congrArg String.data h
      rw [plannedLayout_data, plannedLayout_data] at hd
      exact layoutTail_inj a b options (List.append_cancel_left hd)
    · rintro ⟨h1, h2, h3⟩
      apply String.ext
      rw [plannedLayout_data, plannedLayout_data]
      congr 1
      unfold layoutTail
      rw [h1, h2, h3]
  exact ⟨key, fun hne h => hne (key.mp h).2.1⟩

theorem same_output_path_iff_witness :
    sanitizeFilename demoImage.name ≠ sanitizeFilename demoLatitude.name ∧
    generateOutputPath "scene.h5" demoImage {} ≠ generateOutputPath "scene.h5" demoLatitude {} :=
  ⟨by decide, (same_output_path_iff "scene.h5" {} demoImage demoLatitude).2 (by decide)⟩

end SkyStack
